import Mathlib

/-!
Shallow embedding of the roblox-ts lowering core (class lowering, call-site
macro resolver, source-file wrapper) and proofs about it.

Translated from:
  * src/unnamed/part_000        -- class declaration/expression lowering
  * src/src/transpiler/call.ts  -- call-expression macro resolver
  * src/src/transpiler/sourceFile.ts -- module/source-file wrapper

External collaborators (transpileExpression, transpileArguments,
transpileMethodDeclaration, transpileConstructorDeclaration,
transpileAccessorDeclaration, transpileRoactClassDeclaration, checkReserved,
checkMethodReserved, validateApiAccess, transpileStatementedNode) are not part
of the given sources; the embedding is parameterized over them via the
`Collab` record, so every theorem quantifies over all collaborator behaviors
(or instantiates a concrete trivial collaborator in witnesses).
-/

namespace RobloxTS

/-- Closed enumeration of diagnostic kinds (TranspilerErrorType); only the
tags used by the three embedded source files plus the tags of collaborator
checks are listed. -/
inductive TranspilerErrorType where
  | RoactSubClassesNotSupported
  | UndefinableMetamethod
  | ExpectedPropertyAccessExpression
  | NoMacroMathExpressionStatement
  | ExportInNonModuleScript
  | MultipleExportEquals
  | ReservedKeyword
  | ReservedMethodName
  | InvalidApiAccess
  deriving DecidableEq

/-- An error raised during lowering: either a structured TranspilerError
(message + kind; the offending node is dropped, it carries no semantic
content for these claims) or a plain thrown JS error such as the one raised
by ts-morph getSymbolOrThrow. -/
inductive Err where
  | transpiler (message : String) (ty : TranspilerErrorType)
  | thrown (message : String)
  deriving DecidableEq

/-- Kind tag of an Err, when it is a TranspilerError. -/
def Err.errorType? : Err → Option TranspilerErrorType
  | Err.transpiler _ ty => some ty
  | Err.thrown _ => none

/-- Modelled from the spec: TranspilerState (src/ holds only its uses, not its
definition).  Fields follow section 3 of the spec: indentation depth, hoist
stack (one name set per enclosing scope), fresh-identifier counter, export
registry, uses-runtime-library flag, module-ness and script-kind
classification. -/
structure TranspilerState where
  indentLevel : Nat
  hoistStack : List (List String)
  idCounter : Nat
  exports : List String
  usesTSLibrary : Bool
  isModule : Bool
  scriptContext : Nat
  deriving DecidableEq

/-- One tab per indentation level (pushIndent appends a tab to the indent
string in the real TranspilerState). -/
def indentStr : Nat → String
  | 0 => ""
  | n + 1 => indentStr n ++ "\t"

def TranspilerState.indent (st : TranspilerState) : String := indentStr st.indentLevel

def TranspilerState.pushIndent (st : TranspilerState) : TranspilerState :=
  { st with indentLevel := st.indentLevel + 1 }

def TranspilerState.popIndent (st : TranspilerState) : TranspilerState :=
  { st with indentLevel := st.indentLevel - 1 }

/-- Modelled from the spec: fresh-identifier generation from the
monotonically increasing state-owned counter. -/
def TranspilerState.getNewId (st : TranspilerState) : String × TranspilerState :=
  ("_" ++ toString st.idCounter, { st with idCounter := st.idCounter + 1 })

/-- Modelled from the spec: export bookkeeping (name registered for the
module's public surface). -/
def TranspilerState.pushExport (st : TranspilerState) (name : String) : TranspilerState :=
  { st with exports := st.exports ++ [name] }

/-- Add a name to the innermost hoist scope
(hoistStack[hoistStack.length - 1].add(name)). -/
def addToLast : List (List String) → String → List (List String)
  | [], _ => []
  | [s], n => [s ++ [n]]
  | x :: xs, n => x :: addToLast xs n

/-- Static type symbol data read through ts-morph: getName, getEscapedName,
and whether some declaration of the property-access symbol is a
MethodDeclaration or MethodSignature. -/
structure SymbolInfo where
  name : String
  escapedName : String
  declsIncludeMethod : Bool
  deriving DecidableEq

/-- Static type data read through ts-morph on a receiver expression:
isArrayType (typeUtilities), isString, isStringLiteral, getSymbol. -/
structure TypeInfo where
  isArrayType : Bool
  isString : Bool
  isStringLiteral : Bool
  symbol : Option SymbolInfo
  deriving DecidableEq

/-- An opaque expression node: the lowering core only asks whether it is a
SuperExpression and for its static type; its payload is lowered by the
external transpileExpression collaborator. -/
structure Expr where
  isSuperExpression : Bool
  type : TypeInfo
  payload : Nat
  deriving DecidableEq

/-- A property-access callee `subExp.name`: receiver sub-expression, member
name, and the static type of the whole property-access expression (used for
the method-declaration separator logic). -/
structure PropertyAccess where
  subExp : Expr
  name : String
  exprType : TypeInfo
  deriving DecidableEq

/-- The callee shape of a call expression: a property access, a super
expression, or anything else. -/
inductive CallTarget where
  | property (pa : PropertyAccess)
  | superCall (e : Expr)
  | other (e : Expr)
  deriving DecidableEq

/-- A call-expression node: callee shape, argument list, whether the static
return type is a tuple type, and whether the node's parent is an
ExpressionStatement. -/
structure CallNode where
  target : CallTarget
  arguments : List Expr
  returnTypeIsTuple : Bool
  parentIsExpressionStatement : Bool
  deriving DecidableEq

/-- Script type classification of a source file (utility.ts, external). -/
inductive ScriptType where
  | Module
  | Client
  | Server
  deriving DecidableEq

/-- A source-file node: script context/type classification and, for each
descendant of kind ExportAssignment in document order, whether it is an
`export =` assignment (isExportEquals). -/
structure SourceFileNode where
  scriptContext : Nat
  scriptType : ScriptType
  exportAssignments : List Bool
  deriving DecidableEq

/-- A heritage type entry of a class; the Roact special-case tests
(startsWith on the two Roact base-type texts, inheritsFromRoact) are
performed by code outside src/, so their results are recorded as fields. -/
structure BaseTypeInfo where
  text : String
  startsWithRoactComponent : Bool
  startsWithRoactPure : Bool
  inheritsFromRoact : Bool
  deriving DecidableEq

/-- A method declaration: name, whether a body is present (overload
signatures have none), opaque payload for the collaborator. -/
structure MethodDecl where
  name : String
  hasBody : Bool
  payload : Nat
  deriving DecidableEq

/-- Kind of an instance property: plain property, get accessor, set
accessor. -/
inductive PropKind where
  | plain
  | getAcc
  | setAcc
  deriving DecidableEq

/-- An instance property declaration; `parentIsClass` mirrors the
`prop.getParent() === node` filter, `isInitializerExprable` mirrors
TypeGuards.isInitializerExpressionableNode. -/
structure InstanceProp where
  kind : PropKind
  name : String
  parentIsClass : Bool
  isInitializerExprable : Bool
  initializer : Option Expr
  payload : Nat
  deriving DecidableEq

/-- A static property declaration. -/
structure StaticProp where
  name : String
  isInitializerExprable : Bool
  initializer : Option Expr
  deriving DecidableEq

/-- A constructor declaration (opaque; lowered by the external
transpileConstructorDeclaration). -/
structure ConstructorDecl where
  payload : Nat
  deriving DecidableEq

/-- The per-class data of a class declaration/expression node. -/
structure ClassData where
  nameOpt : Option String
  isExpression : Bool
  isAbstract : Bool
  baseTypes : List BaseTypeInfo
  extendsExpr : Option Expr
  staticMethods : List MethodDecl
  staticProperties : List StaticProp
  instanceProperties : List InstanceProp
  instanceMethods : List MethodDecl
  constructors : List ConstructorDecl
  deriving DecidableEq

/-- A class node together with its base-class chain: `ancestors` lists the
data of getBaseClass(), getBaseClass().getBaseClass(), ... in order (the
ts-morph chain flattened). -/
structure ClassNode where
  data : ClassData
  ancestors : List ClassData
  deriving DecidableEq

/-- ts-morph ClassDeclaration.getMethod(name): first method (instance or
static; getMethods covers both) with the given name. -/
def ClassData.findMethod (d : ClassData) (methodName : String) : Option MethodDecl :=
  (d.instanceMethods ++ d.staticMethods).find? (fun m => m.name == methodName)

/-- getClassMethod: look the method up on the class, then recursively on the
base-class chain. -/
def getClassMethodAux : ClassData → List ClassData → String → Option MethodDecl
  | d, anc, methodName =>
    match d.findMethod methodName with
    | some m => some m
    | none =>
      match anc with
      | [] => none
      | b :: rest => getClassMethodAux b rest methodName

def getClassMethod (c : ClassNode) (methodName : String) : Option MethodDecl :=
  getClassMethodAux c.data c.ancestors methodName

/-- The external collaborator functions consumed by the lowering core; the
fallible ones (reservation checks, API validation) return Except. -/
structure Collab where
  transpileExpression : TranspilerState → Expr → String × TranspilerState
  transpileArguments : TranspilerState → List Expr → String × TranspilerState
  transpileMethodDeclaration : TranspilerState → MethodDecl → String × TranspilerState
  transpileConstructorDeclaration :
    TranspilerState → String → Option ConstructorDecl → List String → Bool →
      String × TranspilerState
  transpileAccessorDeclaration : TranspilerState → InstanceProp → String → String × TranspilerState
  transpileRoactClassDeclaration : TranspilerState → String → String → ClassNode → String × TranspilerState
  checkReserved : String → Except Err Unit
  checkMethodReserved : String → Except Err Unit
  validateApiAccess : String → Except Err Unit
  transpileStatementedNode : TranspilerState → SourceFileNode → String × TranspilerState

/-! ## call.ts -/

def STRING_MACRO_METHODS : List String :=
  ["byte", "find", "format", "gmatch", "gsub", "len", "lower", "match", "rep",
   "reverse", "sub", "upper"]

def RBX_MATH_CLASSES : List String :=
  ["CFrame", "UDim", "UDim2", "Vector2", "Vector2int16", "Vector3", "Vector3int16"]

/-- The tuple-return wrapping applied at the two call-lowering exits
(lines 43-45 and 185-187 of call.ts): wrap in a single-element aggregate
iff wrapping was not suppressed and the static return type is a tuple. -/
def wrapTuple (doNotWrapTupleReturn isTuple : Bool) (result : String) : String :=
  if !doNotWrapTupleReturn && isTuple then "\x7b " ++ result ++ " \x7d" else result

/-- The NoMacroMathExpressionStatement diagnostic raised by validateMathCall. -/
def mathStmtErr (subExpTypeName property : String) : Err :=
  Err.transpiler (subExpTypeName ++ "." ++ property ++ "() cannot be an expression statement!")
    TranspilerErrorType.NoMacroMathExpressionStatement

/-- Default member-call lowering (call.ts lines 161-188): pick the separator
from whether the member resolves to a method declaration/signature, with the
super-receiver rewrite to the ancestor instance table, then emit and
tuple-wrap. -/
def defaultPropertyCall (node : CallNode) (pa : PropertyAccess) (accessPath params : String)
    (st2 : TranspilerState) (doNotWrapTupleReturn : Bool) :
    Except Err (String × TranspilerState) :=
  let symbol := pa.exprType.symbol
  let isSuper := pa.subExp.isSuperExpression
  let parts : Except Err (String × String × String) :=
    match symbol with
    | some s =>
      if s.declsIncludeMethod then
        if isSuper then
          match pa.subExp.type.symbol with
          | some styp =>
            Except.ok (styp.name ++ ".__index", ".",
              "self" ++ (if params.length > 0 then ", " else "") ++ params)
          | none => Except.error (Err.thrown "getSymbolOrThrow: no symbol")
        else Except.ok (accessPath, ":", params)
      else Except.ok (accessPath, ".", params)
    | none => Except.ok (accessPath, ".", params)
  match parts with
  | Except.error e => Except.error e
  | Except.ok (ap, sep, ps) =>
    Except.ok
      (wrapTuple doNotWrapTupleReturn node.returnTypeIsTuple
        (ap ++ sep ++ pa.name ++ "(" ++ ps ++ ")"), st2)

/-- transpilePropertyCallExpression (call.ts lines 50-189). -/
def transpilePropertyCallExpression (cb : Collab) (st : TranspilerState) (node : CallNode)
    (doNotWrapTupleReturn : Bool) : Except Err (String × TranspilerState) :=
  match node.target with
  | CallTarget.property pa =>
    (match cb.validateApiAccess pa.name with
     | Except.error e => Except.error e
     | Except.ok _ =>
       let subExpType := pa.subExp.type
       let ep := cb.transpileExpression st pa.subExp
       let accessPath := ep.1
       let property := pa.name
       let pr := cb.transpileArguments ep.2 node.arguments
       let params := pr.1
       let st2 := pr.2
       if subExpType.isArrayType then
         let paramStr := accessPath ++ (if params.length > 0 then ", " ++ params else "")
         Except.ok ("TS.array_" ++ property ++ "(" ++ paramStr ++ ")",
           { st2 with usesTSLibrary := true })
       else if subExpType.isString || subExpType.isStringLiteral then
         let paramStr := accessPath ++ (if params.length > 0 then ", " ++ params else "")
         if STRING_MACRO_METHODS.contains property then
           Except.ok ("string." ++ property ++ "(" ++ paramStr ++ ")", st2)
         else
           Except.ok ("TS.string_" ++ property ++ "(" ++ paramStr ++ ")",
             { st2 with usesTSLibrary := true })
       else
         match subExpType.symbol with
         | some sym =>
           let subExpTypeName := sym.escapedName
           if subExpTypeName == "Promise" && property == "then" then
             Except.ok (accessPath ++ ":andThen(" ++ params ++ ")", st2)
           else if subExpTypeName == "SymbolConstructor" && property == "for" then
             Except.ok (accessPath ++ ".getFor(" ++ params ++ ")", st2)
           else if subExpTypeName == "Map" || subExpTypeName == "ReadonlyMap"
               || subExpTypeName == "WeakMap" then
             let paramStr := accessPath ++ (if params.length > 0 then ", " ++ params else "")
             Except.ok ("TS.map_" ++ property ++ "(" ++ paramStr ++ ")",
               { st2 with usesTSLibrary := true })
           else if subExpTypeName == "Set" || subExpTypeName == "ReadonlySet"
               || subExpTypeName == "WeakSet" then
             let paramStr := accessPath ++ (if params.length > 0 then ", " ++ params else "")
             Except.ok ("TS.set_" ++ property ++ "(" ++ paramStr ++ ")",
               { st2 with usesTSLibrary := true })
           else if subExpTypeName == "ObjectConstructor" then
             Except.ok ("TS.Object_" ++ property ++ "(" ++ params ++ ")",
               { st2 with usesTSLibrary := true })
           else if RBX_MATH_CLASSES.contains subExpTypeName then
             if property == "add" then
               if node.parentIsExpressionStatement then
                 Except.error (mathStmtErr subExpTypeName property)
               else Except.ok ("(" ++ accessPath ++ " + (" ++ params ++ "))", st2)
             else if property == "sub" then
               if node.parentIsExpressionStatement then
                 Except.error (mathStmtErr subExpTypeName property)
               else Except.ok ("(" ++ accessPath ++ " - (" ++ params ++ "))", st2)
             else if property == "mul" then
               if node.parentIsExpressionStatement then
                 Except.error (mathStmtErr subExpTypeName property)
               else Except.ok ("(" ++ accessPath ++ " * (" ++ params ++ "))", st2)
             else if property == "div" then
               if node.parentIsExpressionStatement then
                 Except.error (mathStmtErr subExpTypeName property)
               else Except.ok ("(" ++ accessPath ++ " / (" ++ params ++ "))", st2)
             else defaultPropertyCall node pa accessPath params st2 doNotWrapTupleReturn
           else defaultPropertyCall node pa accessPath params st2 doNotWrapTupleReturn
         | none => defaultPropertyCall node pa accessPath params st2 doNotWrapTupleReturn)
  | _ =>
    Except.error (Err.transpiler "Expected PropertyAccessExpression"
      TranspilerErrorType.ExpectedPropertyAccessExpression)

/-- Whether one of the named-type special forms of call.ts lines 96-158
fires for the given receiver-type symbol name and member name (Promise.then,
SymbolConstructor.for, the Map/Set families, ObjectConstructor, and the
math-class add/sub/mul/div operators). -/
def specialFormMatches (n property : String) : Bool :=
  (n == "Promise" && property == "then")
    || (n == "SymbolConstructor" && property == "for")
    || n == "Map" || n == "ReadonlyMap" || n == "WeakMap"
    || n == "Set" || n == "ReadonlySet" || n == "WeakSet"
    || n == "ObjectConstructor"
    || (RBX_MATH_CLASSES.contains n
        && (property == "add" || property == "sub" || property == "mul" || property == "div"))

/-- transpileCallExpression (call.ts lines 24-48). -/
def transpileCallExpression (cb : Collab) (st : TranspilerState) (node : CallNode)
    (doNotWrapTupleReturn : Bool) : Except Err (String × TranspilerState) :=
  match node.target with
  | CallTarget.property _ => transpilePropertyCallExpression cb st node doNotWrapTupleReturn
  | CallTarget.superCall e =>
    let pr := cb.transpileArguments st node.arguments
    let params0 := pr.1
    let params1 := if params0.length > 0 then ", " ++ params0 else params0
    let params := "self" ++ params1
    (match e.type.symbol with
     | some sym => Except.ok (sym.name ++ ".constructor(" ++ params ++ ")", pr.2)
     | none => Except.error (Err.thrown "getSymbolOrThrow: no symbol"))
  | CallTarget.other e =>
    let cp := cb.transpileExpression st e
    let pr := cb.transpileArguments cp.2 node.arguments
    Except.ok
      (wrapTuple doNotWrapTupleReturn node.returnTypeIsTuple (cp.1 ++ "(" ++ pr.1 ++ ")"), pr.2)

/-! ## sourceFile.ts -/

/-- The fixed runtime-library import statement (IMP_STR). -/
def IMP_STR : String :=
  "local TS = require(\n\tgame:GetService(\"ReplicatedStorage\")\n\t\t:WaitForChild(\"RobloxTS\")\n\t\t:WaitForChild(\"Include\")\n\t\t:WaitForChild(\"RuntimeLib\")\n);\n"

/-- The MultipleExportEquals diagnostic. -/
def multipleExportEqualsErr : Err :=
  Err.transpiler
    "ModuleScript contains multiple ExportEquals. You can only do \x60export = \x60 once."
    TranspilerErrorType.MultipleExportEquals

/-- The ExportAssignment descendant loop (sourceFile.ts lines 29-41): throw
when a descendant is visited while hasExportEquals is already set; set the
flag on each isExportEquals descendant. -/
def exportEqualsLoop : List Bool → Bool → Except Err Bool
  | [], hasExportEquals => Except.ok hasExportEquals
  | f :: rest, hasExportEquals =>
    if hasExportEquals then Except.error multipleExportEqualsErr
    else exportEqualsLoop rest (if f then true else hasExportEquals)

/-- transpileSourceFile (sourceFile.ts lines 14-58). -/
def transpileSourceFile (cb : Collab) (st : TranspilerState) (node : SourceFileNode) :
    Except Err (String × TranspilerState) :=
  let st0 := { st with scriptContext := node.scriptContext }
  let scriptType := node.scriptType
  let bp := cb.transpileStatementedNode st0 node
  let body := bp.1
  let st1 := bp.2
  let wrapped : Except Err String :=
    if st1.isModule then
      if scriptType ≠ ScriptType.Module then
        Except.error (Err.transpiler "Attempted to export in a non-ModuleScript!"
          TranspilerErrorType.ExportInNonModuleScript)
      else
        match exportEqualsLoop node.exportAssignments false with
        | Except.error e => Except.error e
        | Except.ok hasExportEquals =>
          Except.ok
            (st1.indent ++
              (if hasExportEquals then "local _exports;\n" else "local _exports = \x7b\x7d;\n")
              ++ body ++ st1.indent ++ "return _exports;\n")
    else
      Except.ok (if scriptType = ScriptType.Module then body ++ st1.indent ++ "return nil;\n" else body)
  match wrapped with
  | Except.error e => Except.error e
  | Except.ok result =>
    Except.ok ((if st1.usesTSLibrary then st1.indent ++ IMP_STR ++ result else result), st1)

/-! ## class lowering (src/unnamed/part_000) -/

def LUA_RESERVED_METAMETHODS : List String :=
  ["__index", "__newindex", "__add", "__sub", "__mul", "__div", "__mod", "__pow",
   "__unm", "__eq", "__lt", "__le", "__call", "__concat", "__tostring", "__len",
   "__metatable", "__mode"]

def LUA_UNDEFINABLE_METAMETHODS : List String := ["__index", "__newindex", "__mode"]

/-- Outcome of the heritage-type loop (part_000 lines 76-94): delegate to the
Roact component / pure-component lowering, raise the subclass error, or fall
through to ordinary class lowering. -/
inductive RoactOutcome where
  | component
  | pureComponent
  | subclassError
  | none
  deriving DecidableEq

def findRoact : List BaseTypeInfo → RoactOutcome
  | [] => RoactOutcome.none
  | bt :: rest =>
    if bt.startsWithRoactComponent then RoactOutcome.component
    else if bt.startsWithRoactPure then RoactOutcome.pureComponent
    else if bt.inheritsFromRoact then RoactOutcome.subclassError
    else findRoact rest

/-- The ancestor test of the static side of the inheritance walk
(part_000 lines 123-129); ts-morph getStaticMembers returns the static
properties and methods together, so the first disjunct counts both. -/
def staticTest (d : ClassData) : Bool :=
  decide (0 < d.staticProperties.length + d.staticMethods.length)
    || decide (0 < d.staticProperties.length) || decide (0 < d.staticMethods.length)

/-- The ancestor test of the instance side (part_000 lines 131-137);
getInstanceMembers likewise covers the instance properties and methods. -/
def instanceTest (d : ClassData) : Bool :=
  decide (0 < d.instanceProperties.length + d.instanceMethods.length)
    || decide (0 < d.instanceProperties.length) || decide (0 < d.instanceMethods.length)

/-- The while-loop over the base-class chain computing hasStaticInheritance
and hasInstanceInheritance (part_000 lines 120-140), with the two flags as
accumulators. -/
def inheritanceFlagsLoop : List ClassData → Bool → Bool → Bool × Bool
  | [], s, i => (s, i)
  | d :: rest, s, i =>
    inheritanceFlagsLoop rest (if staticTest d then true else s)
      (if instanceTest d then true else i)

/-- The `local super = <base>;` alias line (part_000 lines 142-144), emitted
exactly when either inheritance flag is set. -/
def superAliasSection (st : TranspilerState) (baseClassName : String)
    (hasStaticInheritance hasInstanceInheritance : Bool) : String :=
  if hasStaticInheritance || hasInstanceInheritance then
    st.indent ++ "local super = " ++ baseClassName ++ ";\n"
  else ""

/-- The forEach over the concrete static methods (part_000 lines 159-167):
prepend a newline before the first member, every member line is indented and
lowered by the collaborator; tracks hasStaticMembers. -/
def staticMethodsFold (cb : Collab) :
    List MethodDecl → String → Bool → TranspilerState → String × Bool × TranspilerState
  | [], acc, hasM, st => (acc, hasM, st)
  | m :: rest, acc, hasM, st =>
    let acc1 := if hasM then acc else acc ++ "\n"
    let ind := st.indent
    let tp := cb.transpileMethodDeclaration st m
    staticMethodsFold cb rest (acc1 ++ ind ++ tp.1) true tp.2

/-- The static table emission (part_000 lines 146-175): open (with
setmetatable wiring iff hasStaticInheritance), lower the body-bearing static
methods one indent level deeper, close. -/
def staticTableSection (cb : Collab) (st : TranspilerState) (d : ClassData)
    (id pfx : String) (hasStaticInheritance : Bool) : String × Bool × TranspilerState :=
  let openStr :=
    if hasStaticInheritance then st.indent ++ pfx ++ id ++ " = setmetatable(\x7b"
    else st.indent ++ pfx ++ id ++ " = \x7b"
  let fp := staticMethodsFold cb (d.staticMethods.filter (fun m => m.hasBody)) "" false st.pushIndent
  let body := fp.1
  let hasStaticMembers := fp.2.1
  let st3 := fp.2.2.popIndent
  let closeStr :=
    if hasStaticInheritance then
      (if hasStaticMembers then st3.indent else "") ++ "\x7d, \x7b__index = super\x7d);\n"
    else (if hasStaticMembers then st3.indent else "") ++ "\x7d;\n"
  (openStr ++ body ++ closeStr, hasStaticMembers, st3)

/-- The instance-property loop collecting the extra constructor initializers
(part_000 lines 193-205): for every named plain property, check the name
against reserved method names and, when an initializer exists, lower it into
a `self.<name> = <value>;` line. -/
def extraInitializersFold (cb : Collab) :
    List InstanceProp → TranspilerState → Except Err (List String × TranspilerState)
  | [], st => Except.ok ([], st)
  | p :: rest, st =>
    if p.name ≠ "" then
      match cb.checkMethodReserved p.name with
      | Except.error e => Except.error e
      | Except.ok _ =>
        match (if p.isInitializerExprable then p.initializer else none) with
        | some e =>
          let tp := cb.transpileExpression st e
          (match extraInitializersFold cb rest tp.2 with
           | Except.error err => Except.error err
           | Except.ok (l, st2) =>
             Except.ok (("self." ++ p.name ++ " = " ++ tp.1 ++ ";\n") :: l, st2))
        | none => extraInitializersFold cb rest st
    else extraInitializersFold cb rest st

/-- The forEach over the concrete instance methods (part_000 lines 207-215);
unlike the static side, no indent prefix is written before each lowered
method. -/
def instanceMethodsFold (cb : Collab) :
    List MethodDecl → String → Bool → TranspilerState → String × Bool × TranspilerState
  | [], acc, hasM, st => (acc, hasM, st)
  | m :: rest, acc, hasM, st =>
    let acc1 := if hasM then acc else acc ++ "\n"
    let tp := cb.transpileMethodDeclaration st m
    instanceMethodsFold cb rest (acc1 ++ tp.1) true tp.2

/-- The instance (`__index`) table emission (part_000 lines 177-223): open
(with setmetatable wiring to `super` iff hasInstanceInheritance), collect the
extra initializers from the plain own instance properties, lower the
body-bearing instance methods, close.  Returns the emitted text, the extra
initializers, and the threaded state. -/
def instanceTableSection (cb : Collab) (st : TranspilerState) (d : ClassData)
    (id : String) (hasInstanceInheritance : Bool) :
    Except Err (String × List String × TranspilerState) :=
  let openStr :=
    if hasInstanceInheritance then st.indent ++ id ++ ".__index = setmetatable(\x7b"
    else st.indent ++ id ++ ".__index = \x7b"
  let instanceProps :=
    ((d.instanceProperties.filter (fun p => p.parentIsClass)).filter
        (fun p => ¬ p.kind = PropKind.getAcc)).filter
      (fun p => ¬ p.kind = PropKind.setAcc)
  match extraInitializersFold cb instanceProps st.pushIndent with
  | Except.error e => Except.error e
  | Except.ok (extraInitializers, st2) =>
    let fp := instanceMethodsFold cb (d.instanceMethods.filter (fun m => m.hasBody)) "" false st2
    let body := fp.1
    let hasIndexMembers := fp.2.1
    let st4 := fp.2.2.popIndent
    let closeStr :=
      if hasInstanceInheritance then
        (if hasIndexMembers then st4.indent else "") ++ "\x7d, super);\n"
      else (if hasIndexMembers then st4.indent else "") ++ "\x7d;\n"
    Except.ok (openStr ++ body ++ closeStr, extraInitializers, st4)

/-- The metamethod forEach (part_000 lines 225-236): for every reserved Lua
metamethod defined as a method on the class or an ancestor, either raise the
UndefinableMetamethod diagnostic (for the three undefinable ones) or emit the
forwarding trampoline line. -/
def metamethodFold (node : ClassNode) (ind id : String) : List String → Except Err String
  | [] => Except.ok ""
  | metamethod :: rest =>
    match getClassMethod node metamethod with
    | some _ =>
      if LUA_UNDEFINABLE_METAMETHODS.contains metamethod then
        Except.error (Err.transpiler
          ("Cannot use undefinable Lua metamethod as identifier \x27" ++ metamethod
            ++ "\x27 for a class")
          TranspilerErrorType.UndefinableMetamethod)
      else
        match metamethodFold node ind id rest with
        | Except.error e => Except.error e
        | Except.ok restText =>
          Except.ok (ind ++ id ++ "." ++ metamethod
            ++ " = function(self, ...) return self:" ++ metamethod ++ "(...); end;\n"
            ++ restText)
    | none => metamethodFold node ind id rest

/-- The `new` factory emission (part_000 lines 238-244): nothing for an
abstract class, otherwise a factory that allocates setmetatable(\x7b\x7d, id)
and forwards all arguments to the constructor slot. -/
def newFactorySection (st : TranspilerState) (id : String) (isAbstract : Bool) : String :=
  if isAbstract then ""
  else
    st.indent ++ id ++ ".new = function(...)\n"
      ++ st.pushIndent.indent ++ "return " ++ id ++ ".constructor(setmetatable(\x7b\x7d, "
      ++ id ++ "), ...);\n"
      ++ st.indent ++ "end;\n"

/-- The static property assignments (part_000 lines 254-266). -/
def staticPropsFold (cb : Collab) (id : String) :
    List StaticProp → String → TranspilerState → Except Err (String × TranspilerState)
  | [], acc, st => Except.ok (acc, st)
  | p :: rest, acc, st =>
    match cb.checkMethodReserved p.name with
    | Except.error e => Except.error e
    | Except.ok _ =>
      let vp : String × TranspilerState :=
        match (if p.isInitializerExprable then p.initializer else none) with
        | some e => cb.transpileExpression st e
        | none => ("nil", st)
      staticPropsFold cb id rest
        (acc ++ vp.2.indent ++ id ++ "." ++ p.name ++ " = " ++ vp.1 ++ ";\n") vp.2

/-- The get-accessors declared directly on a class. -/
def gettersOf (d : ClassData) : List InstanceProp :=
  d.instanceProperties.filter (fun p => p.kind == PropKind.getAcc)

/-- The set-accessors declared directly on a class. -/
def settersOf (d : ClassData) : List InstanceProp :=
  d.instanceProperties.filter (fun p => p.kind == PropKind.setAcc)

/-- The ancestor walk checking for inherited get-accessors
(part_000 lines 271-283). -/
def ancestorHasGettersLoop : List ClassData → Bool
  | [] => false
  | d :: rest =>
    if 0 < (gettersOf d).length then true else ancestorHasGettersLoop rest

/-- The ancestor walk checking for inherited set-accessors
(part_000 lines 323-335). -/
def ancestorHasSettersLoop : List ClassData → Bool
  | [] => false
  | d :: rest =>
    if 0 < (settersOf d).length then true else ancestorHasSettersLoop rest

/-- The loop lowering the accessor declarations into the accessor-table
content (part_000 lines 289-291 and 340-342). -/
def accessorContentFold (cb : Collab) :
    List InstanceProp → String → TranspilerState → String × TranspilerState
  | [], acc, st => (acc, st)
  | a :: rest, acc, st =>
    let tp := cb.transpileAccessorDeclaration st a a.name
    accessorContentFold cb rest (acc ++ tp.1) tp.2

/-- The replacement `__index` metamethod block emitted when a class has own
or inherited get-accessors (part_000 lines 303-317): snapshot the assembled
instance table, then dispatch each read through _getters with raw-lookup
fallback. -/
def indexDispatchBlock (st : TranspilerState) (id : String) : String :=
  let ind := st.indent
  let ind1 := st.pushIndent.indent
  let ind2 := st.pushIndent.pushIndent.indent
  ind ++ "local __index = " ++ id ++ ".__index;\n"
    ++ ind ++ id ++ ".__index = function(self, index)\n"
    ++ ind1 ++ "local getter = " ++ id ++ "._getters[index];\n"
    ++ ind1 ++ "if getter then\n"
    ++ ind2 ++ "return getter(self);\n"
    ++ ind1 ++ "else\n"
    ++ ind2 ++ "return __index[index];\n"
    ++ ind1 ++ "end;\n"
    ++ ind ++ "end;\n"

/-- The `__newindex` metamethod block emitted when a class has own or
inherited set-accessors (part_000 lines 354-367): dispatch each write
through _setters with rawset fallback. -/
def newindexDispatchBlock (st : TranspilerState) (id : String) : String :=
  let ind := st.indent
  let ind1 := st.pushIndent.indent
  let ind2 := st.pushIndent.pushIndent.indent
  ind ++ id ++ ".__newindex = function(self, index, value)\n"
    ++ ind1 ++ "local setter = " ++ id ++ "._setters[index];\n"
    ++ ind1 ++ "if setter then\n"
    ++ ind2 ++ "setter(self, value);\n"
    ++ ind1 ++ "else\n"
    ++ ind2 ++ "rawset(self, index, value);\n"
    ++ ind1 ++ "end;\n"
    ++ ind ++ "end;\n"

/-- The getter emission (part_000 lines 268-318): build or inherit the
_getters table and append the `__index` dispatch block; nothing when the
class has no own or inherited get-accessor. -/
def gettersSection (cb : Collab) (st : TranspilerState) (d : ClassData)
    (anc : List ClassData) (id : String) : String × TranspilerState :=
  let getters := gettersOf d
  let ancestorHasGetters := ancestorHasGettersLoop anc
  if 0 < getters.length || ancestorHasGetters then
    let tp :=
      if 0 < getters.length then
        let cp := accessorContentFold cb getters "\n" st.pushIndent
        let st3 := cp.2.popIndent
        let getterContent := cp.1 ++ st3.indent
        if ancestorHasGetters then
          (st3.indent ++ id ++ "._getters = setmetatable(\x7b" ++ getterContent
            ++ "\x7d, \x7b __index = super._getters \x7d);\n", st3)
        else
          (st3.indent ++ id ++ "._getters = \x7b" ++ getterContent ++ "\x7d;\n", st3)
      else
        (st.indent ++ id ++ "._getters = super._getters;\n", st)
    (tp.1 ++ indexDispatchBlock tp.2 id, tp.2)
  else ("", st)

/-- The setter emission (part_000 lines 320-368), symmetric to the getter
emission with a rawset fallback. -/
def settersSection (cb : Collab) (st : TranspilerState) (d : ClassData)
    (anc : List ClassData) (id : String) : String × TranspilerState :=
  let setters := settersOf d
  let ancestorHasSetters := ancestorHasSettersLoop anc
  if 0 < setters.length || ancestorHasSetters then
    let tp :=
      if 0 < setters.length then
        let cp := accessorContentFold cb setters "\n" st.pushIndent
        let st3 := cp.2.popIndent
        let setterContent := cp.1 ++ st3.indent
        if ancestorHasSetters then
          (st3.indent ++ id ++ "._setters = setmetatable(\x7b" ++ setterContent
            ++ "\x7d, \x7b __index = super._setters \x7d);\n", st3)
        else
          (st3.indent ++ id ++ "._setters = \x7b" ++ setterContent ++ "\x7d;\n", st3)
      else
        (st.indent ++ id ++ "._setters = super._setters;\n", st)
    (tp.1 ++ newindexDispatchBlock tp.2 id, tp.2)
  else ("", st)

/-- The main body of transpileClass after the Roact gate
(part_000 lines 96-377), composing the section functions in source order. -/
def transpileClassMain (cb : Collab) (st : TranspilerState) (node : ClassNode)
    (name : String) : Except Err (String × TranspilerState) :=
  let d := node.data
  let isExpression := d.isExpression
  let hs :=
    if isExpression then ("(function()\n", st)
    else (st.indent ++ "do\n", { st with hoistStack := addToLast st.hoistStack name })
  let header := hs.1
  let st1 := hs.2.pushIndent
  let bp :=
    match d.extendsExpr with
    | some e => cb.transpileExpression st1 e
    | none => ("", st1)
  let baseClassName := bp.1
  let st2 := bp.2
  let id := name
  let flags := inheritanceFlagsLoop node.ancestors false false
  let hasStaticInheritance := flags.1
  let hasInstanceInheritance := flags.2
  let superAlias := superAliasSection st2 baseClassName hasStaticInheritance hasInstanceInheritance
  let pfx := if isExpression then "local " else ""
  let stt := staticTableSection cb st2 d id pfx hasStaticInheritance
  let staticTbl := stt.1
  let st3 := stt.2.2
  match instanceTableSection cb st3 d id hasInstanceInheritance with
  | Except.error e => Except.error e
  | Except.ok (instTbl, extraInitializers, st4) =>
    match metamethodFold node st4.indent id LUA_RESERVED_METAMETHODS with
    | Except.error e => Except.error e
    | Except.ok metaText =>
      let factory := newFactorySection st4 id d.isAbstract
      let cp := cb.transpileConstructorDeclaration st4 id d.constructors.head?
        extraInitializers hasInstanceInheritance
      let ctorText := cp.1
      let st5 := cp.2
      match staticPropsFold cb id d.staticProperties "" st5 with
      | Except.error e => Except.error e
      | Except.ok (staticPropsText, st6) =>
        let gp := gettersSection cb st6 d node.ancestors id
        let sp := settersSection cb gp.2 d node.ancestors id
        let st7 := sp.2.popIndent
        let footer := if isExpression then st7.indent ++ "end)()" else st7.indent ++ "end;\n"
        Except.ok
          (header ++ superAlias ++ staticTbl ++ instTbl ++ metaText ++ factory ++ ctorText
            ++ staticPropsText ++ gp.1 ++ sp.1 ++ footer, st7)

/-- transpileClass (part_000 lines 65-94 plus the main body): name
resolution, reserved-name check, export registration, Roact special cases,
then the ordinary class lowering. -/
def transpileClass (cb : Collab) (st : TranspilerState) (node : ClassNode) :
    Except Err (String × TranspilerState) :=
  let d := node.data
  let np :=
    match d.nameOpt with
    | some n => (n, st)
    | none => st.getNewId
  let name := np.1
  let st0 := np.2
  match (if d.nameOpt.isSome then cb.checkReserved name else Except.ok ()) with
  | Except.error e => Except.error e
  | Except.ok _ =>
    let st1 := if d.isExpression then st0 else st0.pushExport name
    match findRoact d.baseTypes with
    | RoactOutcome.component =>
      Except.ok (cb.transpileRoactClassDeclaration st1 "Component" name node)
    | RoactOutcome.pureComponent =>
      Except.ok (cb.transpileRoactClassDeclaration st1 "PureComponent" name node)
    | RoactOutcome.subclassError =>
      Except.error (Err.transpiler "Derived Classes are not supported in Roact!"
        TranspilerErrorType.RoactSubClassesNotSupported)
    | RoactOutcome.none => transpileClassMain cb st1 node name

def transpileClassDeclaration (cb : Collab) (st : TranspilerState) (node : ClassNode) :
    Except Err (String × TranspilerState) := transpileClass cb st node

def transpileClassExpression (cb : Collab) (st : TranspilerState) (node : ClassNode) :
    Except Err (String × TranspilerState) := transpileClass cb st node

/-! ## Semantics of the emitted accessor-dispatch metamethods

The two dispatch blocks above emit Lua functions; the following two
definitions are their shallow embedding (read off the emitted template, with
the `_getters` / `_setters` table and the raw operations abstracted).  The
returned Bool records which branch of the if/else ran: `true` for the
accessor branch, `false` for the raw fallback — in the emitted if/else
exactly one branch executes. -/

/-- Semantics of the function emitted by indexDispatchBlock. -/
def emittedIndexMetamethod {σ V : Type} (getters : String → Option (σ → V))
    (rawIndex : String → V) (self : σ) (index : String) : Bool × V :=
  match getters index with
  | some getter => (true, getter self)
  | none => (false, rawIndex index)

/-- Semantics of the function emitted by newindexDispatchBlock. -/
def emittedNewindexMetamethod {σ V : Type} (setters : String → Option (σ → V → σ))
    (rawset : σ → String → V → σ) (self : σ) (index : String) (value : V) : Bool × σ :=
  match setters index with
  | some setter => (true, setter self value)
  | none => (false, rawset self index value)

/-! ## Auxiliary definitions for the statements and witnesses -/

/-- String containment: t occurs (contiguously) inside s. -/
def ContainsStr (s t : String) : Prop := ∃ l r, s = l ++ t ++ r

/-- Project the output text out of a lowering result ("" on error). -/
def exOut (e : Except Err (String × TranspilerState)) : String :=
  match e with
  | Except.ok p => p.1
  | Except.error _ => ""

/-- Project the output state out of a lowering result (fallback on error). -/
def exState (fallback : TranspilerState) (e : Except Err (String × TranspilerState)) :
    TranspilerState :=
  match e with
  | Except.ok p => p.2
  | Except.error _ => fallback

/-- Whether a lowering result is an UndefinableMetamethod error (used to
state and derive the error half of the metamethod claim). -/
def isUndefErr : Except Err (String × TranspilerState) → Prop
  | Except.error (Err.transpiler _ TranspilerErrorType.UndefinableMetamethod) => True
  | _ => False

/-- A trivial collaborator used by the witnesses: expressions lower to
`eStr`, argument lists to `aStr`, the remaining collaborators return fixed
text and leave the state unchanged, and every validation succeeds. -/
def mkCollab (eStr aStr : String) : Collab where
  transpileExpression := fun st _ => (eStr, st)
  transpileArguments := fun st _ => (aStr, st)
  transpileMethodDeclaration := fun st m => ("function " ++ m.name ++ "() end;\n", st)
  transpileConstructorDeclaration := fun st id _ _ _ => (id ++ ".constructor = function(self) end;\n", st)
  transpileAccessorDeclaration := fun st p _ => (p.name ++ " = function(self) end;\n", st)
  transpileRoactClassDeclaration := fun st kind name _ => ("roact " ++ kind ++ " " ++ name, st)
  checkReserved := fun _ => Except.ok ()
  checkMethodReserved := fun _ => Except.ok ()
  validateApiAccess := fun _ => Except.ok ()
  transpileStatementedNode := fun st _ => ("", st)

def trivCb : Collab := mkCollab "arr" "f"

def st0 : TranspilerState :=
  { indentLevel := 0, hoistStack := [[]], idCounter := 0, exports := [],
    usesTSLibrary := false, isModule := false, scriptContext := 0 }

def stM : TranspilerState := { st0 with isModule := true }

def tinfoPlain : TypeInfo :=
  { isArrayType := false, isString := false, isStringLiteral := false, symbol := none }

def exprPlain : Expr := { isSuperExpression := false, type := tinfoPlain, payload := 0 }

def exprArr : Expr :=
  { isSuperExpression := false, type := { tinfoPlain with isArrayType := true }, payload := 1 }

def symVector3 : SymbolInfo := { name := "Vector3", escapedName := "Vector3", declsIncludeMethod := false }

def exprVector : Expr :=
  { isSuperExpression := false, type := { tinfoPlain with symbol := some symVector3 }, payload := 2 }

def symObjCtor : SymbolInfo :=
  { name := "ObjectConstructor", escapedName := "ObjectConstructor", declsIncludeMethod := false }

def exprObjCtor : Expr :=
  { isSuperExpression := false, type := { tinfoPlain with symbol := some symObjCtor }, payload := 3 }

def symBase : SymbolInfo := { name := "Base", escapedName := "Base", declsIncludeMethod := false }

def exprSuperBase : Expr :=
  { isSuperExpression := true, type := { tinfoPlain with symbol := some symBase }, payload := 4 }

def symMethodHolder : SymbolInfo := { name := "m", escapedName := "m", declsIncludeMethod := true }

def tinfoMethod : TypeInfo := { tinfoPlain with symbol := some symMethodHolder }

def callArrMap : CallNode :=
  { target := CallTarget.property { subExp := exprArr, name := "map", exprType := tinfoPlain },
    arguments := [exprPlain], returnTypeIsTuple := false, parentIsExpressionStatement := false }

def callVecAddStmt : CallNode :=
  { target := CallTarget.property { subExp := exprVector, name := "add", exprType := tinfoPlain },
    arguments := [exprPlain], returnTypeIsTuple := false, parentIsExpressionStatement := true }

def callVecAddExpr : CallNode :=
  { target := CallTarget.property { subExp := exprVector, name := "add", exprType := tinfoPlain },
    arguments := [exprPlain], returnTypeIsTuple := false, parentIsExpressionStatement := false }

def callSuperCtor : CallNode :=
  { target := CallTarget.superCall exprSuperBase, arguments := [exprPlain],
    returnTypeIsTuple := false, parentIsExpressionStatement := false }

def callSuperMember : CallNode :=
  { target := CallTarget.property { subExp := exprSuperBase, name := "greet", exprType := tinfoMethod },
    arguments := [exprPlain], returnTypeIsTuple := false, parentIsExpressionStatement := false }

def callOtherTuple : CallNode :=
  { target := CallTarget.other exprPlain, arguments := [exprPlain],
    returnTypeIsTuple := true, parentIsExpressionStatement := false }

def callObjKeys : CallNode :=
  { target := CallTarget.property { subExp := exprObjCtor, name := "keys", exprType := tinfoPlain },
    arguments := [exprPlain], returnTypeIsTuple := false, parentIsExpressionStatement := false }

def callDefaultMember : CallNode :=
  { target := CallTarget.property { subExp := exprPlain, name := "foo", exprType := tinfoPlain },
    arguments := [exprPlain], returnTypeIsTuple := true, parentIsExpressionStatement := false }

def emptyClassData : ClassData :=
  { nameOpt := some "Foo", isExpression := false, isAbstract := false, baseTypes := [],
    extendsExpr := none, staticMethods := [], staticProperties := [], instanceProperties := [],
    instanceMethods := [], constructors := [] }

/-- A class declaring __tostring as an instance method. -/
def goodNode : ClassNode :=
  { data := { emptyClassData with
      instanceMethods := [{ name := "__tostring", hasBody := true, payload := 0 }] },
    ancestors := [] }

/-- A class declaring __index as an instance method. -/
def badNode : ClassNode :=
  { data := { emptyClassData with
      nameOpt := some "Bad",
      instanceMethods := [{ name := "__index", hasBody := true, payload := 0 }] },
    ancestors := [] }

/-- A class declaring one get-accessor and one set-accessor. -/
def accNode : ClassNode :=
  { data := { emptyClassData with
      nameOpt := some "Acc",
      instanceProperties :=
        [{ kind := PropKind.getAcc, name := "x", parentIsClass := true,
           isInitializerExprable := false, initializer := none, payload := 0 },
         { kind := PropKind.setAcc, name := "x", parentIsClass := true,
           isInitializerExprable := false, initializer := none, payload := 1 }] },
    ancestors := [] }

/-- An abstract class with no members. -/
def absNode : ClassNode :=
  { data := { emptyClassData with nameOpt := some "Abs", isAbstract := true }, ancestors := [] }

/-- An ancestor class data declaring one instance method. -/
def ancWithInstance : ClassData :=
  { emptyClassData with
    nameOpt := some "Anc",
    instanceMethods := [{ name := "m", hasBody := true, payload := 0 }] }

/-- A derived class whose single ancestor declares an instance member only. -/
def derivedNode : ClassNode :=
  { data := { emptyClassData with nameOpt := some "Derived" }, ancestors := [ancWithInstance] }

def sfNodeOneExportEqualsThenDefault : SourceFileNode :=
  { scriptContext := 0, scriptType := ScriptType.Module, exportAssignments := [true, false] }

def sfNodeTwoExportEquals : SourceFileNode :=
  { scriptContext := 0, scriptType := ScriptType.Module, exportAssignments := [true, true] }

/-! ## Helper lemmas -/

theorem containsStr_self (s : String) : ContainsStr s s :=
  ⟨"", "", by simp⟩

theorem ContainsStr.appendLeft {s t : String} (a : String) (h : ContainsStr s t) :
    ContainsStr (a ++ s) t := by
  obtain ⟨l, r, rfl⟩ := h
  exact ⟨a ++ l, r, by simp [String.append_assoc]⟩

theorem ContainsStr.appendRight {s t : String} (c : String) (h : ContainsStr s t) :
    ContainsStr (s ++ c) t := by
  obtain ⟨l, r, rfl⟩ := h
  exact ⟨l, r ++ c, by simp [String.append_assoc]⟩

/-! ## C5: array-receiver member calls -/

/-- Claim C5: a member call whose receiver's static type is an array-like
container lowers to `TS.array_<member>(<receiver>[, <args>])` — the lowered
receiver is the first argument — and the uses-runtime-library flag of the
resulting state is set. -/
theorem claim5_array_runtime_call (cb : Collab) (st : TranspilerState) (pa : PropertyAccess)
    (args : List Expr) (tup pstmt flag : Bool)
    (hval : cb.validateApiAccess pa.name = Except.ok ())
    (harr : pa.subExp.type.isArrayType = true) :
    (transpilePropertyCallExpression cb st ⟨CallTarget.property pa, args, tup, pstmt⟩ flag =
      (let ep := cb.transpileExpression st pa.subExp
       let pr := cb.transpileArguments ep.2 args
       Except.ok ("TS.array_" ++ pa.name ++ "(" ++
           (ep.1 ++ (if 0 < pr.1.length then ", " ++ pr.1 else "")) ++ ")",
         { pr.2 with usesTSLibrary := true })))
    ∧ ∀ res stOut,
        transpilePropertyCallExpression cb st ⟨CallTarget.property pa, args, tup, pstmt⟩ flag =
          Except.ok (res, stOut) → stOut.usesTSLibrary = true := by
  have h1 : transpilePropertyCallExpression cb st ⟨CallTarget.property pa, args, tup, pstmt⟩ flag =
      (let ep := cb.transpileExpression st pa.subExp
       let pr := cb.transpileArguments ep.2 args
       Except.ok ("TS.array_" ++ pa.name ++ "(" ++
           (ep.1 ++ (if 0 < pr.1.length then ", " ++ pr.1 else "")) ++ ")",
         { pr.2 with usesTSLibrary := true })) := by
    simp [transpilePropertyCallExpression, hval, harr]
  refine ⟨h1, ?_⟩
  intro res stOut h
  rw [h1] at h
  simp only [Except.ok.injEq, Prod.mk.injEq] at h
  rw [← h.2]

/-- Witness for C5 at a concrete input: `arr.map(f)` lowers to
`TS.array_map(arr, f)` and the flag ends up set. -/
theorem claim5_witness :
    trivCb.validateApiAccess "map" = Except.ok () ∧
    exprArr.type.isArrayType = true ∧
    (transpilePropertyCallExpression trivCb st0 callArrMap false =
      (let ep := trivCb.transpileExpression st0 exprArr
       let pr := trivCb.transpileArguments ep.2 [exprPlain]
       Except.ok ("TS.array_" ++ "map" ++ "(" ++
           (ep.1 ++ (if 0 < pr.1.length then ", " ++ pr.1 else "")) ++ ")",
         { pr.2 with usesTSLibrary := true }))) ∧
    transpilePropertyCallExpression trivCb st0 callArrMap false =
      Except.ok ("TS.array_map(arr, f)", { st0 with usesTSLibrary := true }) :=
  ⟨rfl, rfl,
    (claim5_array_runtime_call trivCb st0 ⟨exprArr, "map", tinfoPlain⟩ [exprPlain] false false false
      rfl rfl).1, rfl⟩

/-! ## C10: ObjectConstructor member calls -/

/-- Claim C10: a member call whose receiver's static type symbol is named
ObjectConstructor lowers to `TS.Object_<member>(<args>)` — only the lowered
arguments are passed, the lowered receiver is not prepended — and the
uses-runtime-library flag of the resulting state is set. -/
theorem claim10_object_runtime_call (cb : Collab) (st : TranspilerState) (pa : PropertyAccess)
    (args : List Expr) (tup pstmt flag : Bool) (sym : SymbolInfo)
    (hval : cb.validateApiAccess pa.name = Except.ok ())
    (harr : pa.subExp.type.isArrayType = false)
    (hstr : pa.subExp.type.isString = false)
    (hlit : pa.subExp.type.isStringLiteral = false)
    (hsym : pa.subExp.type.symbol = some sym)
    (hobj : sym.escapedName = "ObjectConstructor") :
    (transpilePropertyCallExpression cb st ⟨CallTarget.property pa, args, tup, pstmt⟩ flag =
      (let ep := cb.transpileExpression st pa.subExp
       let pr := cb.transpileArguments ep.2 args
       Except.ok ("TS.Object_" ++ pa.name ++ "(" ++ pr.1 ++ ")",
         { pr.2 with usesTSLibrary := true })))
    ∧ ∀ res stOut,
        transpilePropertyCallExpression cb st ⟨CallTarget.property pa, args, tup, pstmt⟩ flag =
          Except.ok (res, stOut) → stOut.usesTSLibrary = true := by
  have h1 : transpilePropertyCallExpression cb st ⟨CallTarget.property pa, args, tup, pstmt⟩ flag =
      (let ep := cb.transpileExpression st pa.subExp
       let pr := cb.transpileArguments ep.2 args
       Except.ok ("TS.Object_" ++ pa.name ++ "(" ++ pr.1 ++ ")",
         { pr.2 with usesTSLibrary := true })) := by
    simp [transpilePropertyCallExpression, hval, harr, hstr, hlit, hsym, hobj]
  refine ⟨h1, ?_⟩
  intro res stOut h
  rw [h1] at h
  simp only [Except.ok.injEq, Prod.mk.injEq] at h
  rw [← h.2]

/-- Witness for C10 at a concrete input: `Object.keys(o)` (receiver lowered
to "arr" by the trivial collaborator) lowers to `TS.Object_keys(f)` with the
arguments only. -/
theorem claim10_witness :
    trivCb.validateApiAccess "keys" = Except.ok () ∧
    exprObjCtor.type.symbol = some symObjCtor ∧
    symObjCtor.escapedName = "ObjectConstructor" ∧
    (transpilePropertyCallExpression trivCb st0 callObjKeys false =
      (let ep := trivCb.transpileExpression st0 exprObjCtor
       let pr := trivCb.transpileArguments ep.2 [exprPlain]
       Except.ok ("TS.Object_" ++ "keys" ++ "(" ++ pr.1 ++ ")",
         { pr.2 with usesTSLibrary := true }))) ∧
    transpilePropertyCallExpression trivCb st0 callObjKeys false =
      Except.ok ("TS.Object_keys(f)", { st0 with usesTSLibrary := true }) :=
  ⟨rfl, rfl, rfl,
    (claim10_object_runtime_call trivCb st0 ⟨exprObjCtor, "keys", tinfoPlain⟩ [exprPlain] false false
      false symObjCtor rfl rfl rfl rfl rfl rfl).1, rfl⟩

/-! ## C6: Roblox math-class add/sub/mul/div macros -/

/-- Claim C6: a call to add/sub/mul/div on a receiver whose static type name
is one of the RBX_MATH_CLASSES raises NoMacroMathExpressionStatement when the
call node's parent is an expression statement, and otherwise lowers to the
corresponding parenthesized infix operator expression `(<receiver> <op> (<args>))`. -/
theorem claim6_math_operator (cb : Collab) (st : TranspilerState) (pa : PropertyAccess)
    (args : List Expr) (tup pstmt flag : Bool) (sym : SymbolInfo) (op : String)
    (hval : cb.validateApiAccess pa.name = Except.ok ())
    (harr : pa.subExp.type.isArrayType = false)
    (hstr : pa.subExp.type.isString = false)
    (hlit : pa.subExp.type.isStringLiteral = false)
    (hsym : pa.subExp.type.symbol = some sym)
    (hmath : sym.escapedName ∈ RBX_MATH_CLASSES)
    (hprop : (pa.name, op) ∈ [("add", " + ("), ("sub", " - ("), ("mul", " * ("), ("div", " / (")]) :
    (pstmt = true →
      transpilePropertyCallExpression cb st ⟨CallTarget.property pa, args, tup, pstmt⟩ flag =
        Except.error (mathStmtErr sym.escapedName pa.name))
    ∧ (pstmt = false →
      transpilePropertyCallExpression cb st ⟨CallTarget.property pa, args, tup, pstmt⟩ flag =
        (let ep := cb.transpileExpression st pa.subExp
         let pr := cb.transpileArguments ep.2 args
         Except.ok ("(" ++ ep.1 ++ op ++ pr.1 ++ "))", pr.2))) := by
  simp only [RBX_MATH_CLASSES, List.mem_cons, List.mem_singleton, List.not_mem_nil, or_false] at hmath
  simp only [List.mem_cons, List.mem_singleton, List.not_mem_nil, or_false, Prod.mk.injEq] at hprop
  constructor
  · intro hp
    subst hp
    rcases hprop with ⟨h1, h2⟩ | ⟨h1, h2⟩ | ⟨h1, h2⟩ | ⟨h1, h2⟩ <;> subst h2 <;>
      rw [h1] at hval ⊢ <;>
      rcases hmath with h | h | h | h | h | h | h <;>
        simp [transpilePropertyCallExpression, hval, harr, hstr, hlit, hsym, h, h1,
          RBX_MATH_CLASSES]
  · intro hp
    subst hp
    rcases hprop with ⟨h1, h2⟩ | ⟨h1, h2⟩ | ⟨h1, h2⟩ | ⟨h1, h2⟩ <;> subst h2 <;>
      rw [h1] at hval <;>
      rcases hmath with h | h | h | h | h | h | h <;>
        simp [transpilePropertyCallExpression, hval, harr, hstr, hlit, hsym, h, h1,
          RBX_MATH_CLASSES]

/-- Witness for C6 at concrete inputs: `v.add(w)` as an expression statement
is rejected; the same call in expression position lowers to `(arr + (f))`
(receiver and arguments lowered by the trivial collaborator). -/
theorem claim6_witness :
    symVector3.escapedName ∈ RBX_MATH_CLASSES ∧
    ("add", " + (") ∈ [("add", " + ("), ("sub", " - ("), ("mul", " * ("), ("div", " / (")] ∧
    transpilePropertyCallExpression trivCb st0 callVecAddStmt false =
      Except.error (mathStmtErr symVector3.escapedName "add") ∧
    transpilePropertyCallExpression trivCb st0 callVecAddExpr false =
      (let ep := trivCb.transpileExpression st0 exprVector
       let pr := trivCb.transpileArguments ep.2 [exprPlain]
       Except.ok ("(" ++ ep.1 ++ " + (" ++ pr.1 ++ "))", pr.2)) ∧
    transpilePropertyCallExpression trivCb st0 callVecAddExpr false =
      Except.ok ("(arr + (f))", st0) :=
  ⟨by decide, by decide,
    (claim6_math_operator trivCb st0 ⟨exprVector, "add", tinfoPlain⟩ [exprPlain] false true false
      symVector3 " + (" rfl rfl rfl rfl rfl (by decide) (by decide)).1 rfl,
    (claim6_math_operator trivCb st0 ⟨exprVector, "add", tinfoPlain⟩ [exprPlain] false false false
      symVector3 " + (" rfl rfl rfl rfl rfl (by decide) (by decide)).2 rfl, rfl⟩

/-- Shared helper: when none of the macro branches of
transpilePropertyCallExpression fires (receiver not array-typed, not
string-typed, and no named-type special form matches), lowering reaches the
default member-call path. -/
theorem transpilePropertyCall_default (cb : Collab) (st : TranspilerState) (pa : PropertyAccess)
    (args : List Expr) (tup pstmt flag : Bool)
    (hval : cb.validateApiAccess pa.name = Except.ok ())
    (harr : pa.subExp.type.isArrayType = false)
    (hstr : pa.subExp.type.isString = false)
    (hlit : pa.subExp.type.isStringLiteral = false)
    (hguard : ∀ sym, pa.subExp.type.symbol = some sym →
      specialFormMatches sym.escapedName pa.name = false) :
    transpilePropertyCallExpression cb st ⟨CallTarget.property pa, args, tup, pstmt⟩ flag =
      (let ep := cb.transpileExpression st pa.subExp
       let pr := cb.transpileArguments ep.2 args
       defaultPropertyCall ⟨CallTarget.property pa, args, tup, pstmt⟩ pa ep.1 pr.1 pr.2 flag) := by
  cases hsym : pa.subExp.type.symbol with
  | none => simp [transpilePropertyCallExpression, hval, harr, hstr, hlit, hsym]
  | some sym =>
    have hg := hguard sym hsym
    simp only [specialFormMatches, Bool.or_eq_false_iff] at hg
    obtain ⟨⟨⟨⟨⟨⟨⟨⟨⟨h1, h2⟩, h3⟩, h4⟩, h5⟩, h6⟩, h7⟩, h8⟩, h9⟩, h10⟩ := hg
    rcases Bool.and_eq_false_iff.mp h10 with hc | hops
    · have hc' : sym.escapedName ∉ RBX_MATH_CLASSES := by simpa using hc
      simp [transpilePropertyCallExpression, hval, harr, hstr, hlit, hsym,
        h1, h2, h3, h4, h5, h6, h7, h8, h9, hc']
    · simp only [Bool.or_eq_false_iff] at hops
      obtain ⟨⟨⟨hadd, hsub⟩, hmul⟩, hdiv⟩ := hops
      have hadd' : pa.name ≠ "add" := by simpa using hadd
      have hsub' : pa.name ≠ "sub" := by simpa using hsub
      have hmul' : pa.name ≠ "mul" := by simpa using hmul
      have hdiv' : pa.name ≠ "div" := by simpa using hdiv
      by_cases hc : sym.escapedName ∈ RBX_MATH_CLASSES <;>
        simp [transpilePropertyCallExpression, hval, harr, hstr, hlit, hsym,
          h1, h2, h3, h4, h5, h6, h7, h8, h9, hadd', hsub', hmul', hdiv', hc]

/-! ## C7: super calls and super member calls -/

/-- Claim C7: a `super(...)` call lowers to `<Base>.constructor(self[, args])`
(self prepended to the argument list); a member call on a `super` receiver
whose member resolves to a method declaration/signature lowers through the
base class's instance table directly, `<Base>.__index.<member>(self[, args])`,
with plain field-access syntax and self prepended. -/
theorem claim7_super_lowering :
    (∀ (cb : Collab) (st : TranspilerState) (e : Expr) (args : List Expr)
        (tup pstmt flag : Bool) (sym : SymbolInfo), e.type.symbol = some sym →
      transpileCallExpression cb st ⟨CallTarget.superCall e, args, tup, pstmt⟩ flag =
        (let pr := cb.transpileArguments st args
         Except.ok (sym.name ++ ".constructor(" ++
             ("self" ++ (if 0 < pr.1.length then ", " ++ pr.1 else pr.1)) ++ ")", pr.2)))
    ∧ (∀ (cb : Collab) (st : TranspilerState) (pa : PropertyAccess) (args : List Expr)
        (tup pstmt flag : Bool) (sym styp : SymbolInfo),
      cb.validateApiAccess pa.name = Except.ok () →
      pa.subExp.type.isArrayType = false →
      pa.subExp.type.isString = false →
      pa.subExp.type.isStringLiteral = false →
      pa.subExp.type.symbol = some styp →
      specialFormMatches styp.escapedName pa.name = false →
      pa.subExp.isSuperExpression = true →
      pa.exprType.symbol = some sym →
      sym.declsIncludeMethod = true →
      transpilePropertyCallExpression cb st ⟨CallTarget.property pa, args, tup, pstmt⟩ flag =
        (let ep := cb.transpileExpression st pa.subExp
         let pr := cb.transpileArguments ep.2 args
         Except.ok (wrapTuple flag tup
             (styp.name ++ ".__index" ++ "." ++ pa.name ++ "(" ++
               ("self" ++ (if 0 < pr.1.length then ", " else "") ++ pr.1) ++ ")"), pr.2))) := by
  constructor
  · intro cb st e args tup pstmt flag sym hsym
    simp [transpileCallExpression, hsym]
  · intro cb st pa args tup pstmt flag sym styp hval harr hstr hlit hstyp hguard hsup hsymE hdm
    rw [transpilePropertyCall_default cb st pa args tup pstmt flag hval harr hstr hlit
      (fun s hs => by rw [hstyp] at hs; cases hs; exact hguard)]
    simp [defaultPropertyCall, hsymE, hdm, hsup, hstyp]

/-- Witness for C7 at concrete inputs: `super(x)` lowers to
`Base.constructor(self, f)` and `super.greet(x)` lowers to
`Base.__index.greet(self, f)`. -/
theorem claim7_witness :
    exprSuperBase.type.symbol = some symBase ∧
    tinfoMethod.symbol = some symMethodHolder ∧
    symMethodHolder.declsIncludeMethod = true ∧
    (transpileCallExpression trivCb st0 callSuperCtor false =
      (let pr := trivCb.transpileArguments st0 [exprPlain]
       Except.ok (symBase.name ++ ".constructor(" ++
           ("self" ++ (if 0 < pr.1.length then ", " ++ pr.1 else pr.1)) ++ ")", pr.2))) ∧
    transpileCallExpression trivCb st0 callSuperCtor false =
      Except.ok ("Base.constructor(self, f)", st0) ∧
    (transpilePropertyCallExpression trivCb st0 callSuperMember false =
      (let ep := trivCb.transpileExpression st0 exprSuperBase
       let pr := trivCb.transpileArguments ep.2 [exprPlain]
       Except.ok (wrapTuple false false
           (symBase.name ++ ".__index" ++ "." ++ "greet" ++ "(" ++
             ("self" ++ (if 0 < pr.1.length then ", " else "") ++ pr.1) ++ ")"), pr.2))) ∧
    transpilePropertyCallExpression trivCb st0 callSuperMember false =
      Except.ok ("Base.__index.greet(self, f)", st0) :=
  ⟨rfl, rfl, rfl,
    claim7_super_lowering.1 trivCb st0 exprSuperBase [exprPlain] false false false symBase rfl,
    rfl,
    claim7_super_lowering.2 trivCb st0 ⟨exprSuperBase, "greet", tinfoMethod⟩ [exprPlain]
      false false false symMethodHolder symBase rfl rfl rfl rfl rfl (by decide) rfl rfl rfl,
    rfl⟩

/-! ## C8: tuple-return wrapping -/

/-- Claim C8: for non-member calls and default member calls, the lowered call
text is wrapped in a single-element aggregate exactly once — precisely when
the wrapping-suppression flag was not passed and the static return type is a
tuple type — and not wrapped at all otherwise, so nested double-wrapping
never happens (the wrap is applied only through wrapTuple, once per call
exit). -/
theorem claim8_tuple_wrapping :
    (∀ s, wrapTuple true true s = s)
    ∧ (∀ s, wrapTuple true false s = s)
    ∧ (∀ s, wrapTuple false false s = s)
    ∧ (∀ s, wrapTuple false true s = "\x7b " ++ s ++ " \x7d")
    ∧ (∀ (cb : Collab) (st : TranspilerState) (e : Expr) (args : List Expr)
        (tup pstmt flag : Bool),
      transpileCallExpression cb st ⟨CallTarget.other e, args, tup, pstmt⟩ flag =
        (let cp := cb.transpileExpression st e
         let pr := cb.transpileArguments cp.2 args
         Except.ok (wrapTuple flag tup (cp.1 ++ "(" ++ pr.1 ++ ")"), pr.2)))
    ∧ (∀ (node : CallNode) (pa : PropertyAccess) (ap ps : String) (st2 : TranspilerState)
        (flag : Bool), pa.exprType.symbol = none →
      defaultPropertyCall node pa ap ps st2 flag =
        Except.ok (wrapTuple flag node.returnTypeIsTuple
          (ap ++ "." ++ pa.name ++ "(" ++ ps ++ ")"), st2))
    ∧ (∀ (node : CallNode) (pa : PropertyAccess) (ap ps : String) (st2 : TranspilerState)
        (flag : Bool) (sym : SymbolInfo), pa.exprType.symbol = some sym →
      sym.declsIncludeMethod = false →
      defaultPropertyCall node pa ap ps st2 flag =
        Except.ok (wrapTuple flag node.returnTypeIsTuple
          (ap ++ "." ++ pa.name ++ "(" ++ ps ++ ")"), st2))
    ∧ (∀ (node : CallNode) (pa : PropertyAccess) (ap ps : String) (st2 : TranspilerState)
        (flag : Bool) (sym : SymbolInfo), pa.exprType.symbol = some sym →
      sym.declsIncludeMethod = true → pa.subExp.isSuperExpression = false →
      defaultPropertyCall node pa ap ps st2 flag =
        Except.ok (wrapTuple flag node.returnTypeIsTuple
          (ap ++ ":" ++ pa.name ++ "(" ++ ps ++ ")"), st2)) := by
  refine ⟨fun s => rfl, fun s => rfl, fun s => rfl, fun s => rfl, ?_, ?_, ?_, ?_⟩
  · intro cb st e args tup pstmt flag
    simp [transpileCallExpression]
  · intro node pa ap ps st2 flag hnone
    simp [defaultPropertyCall, hnone]
  · intro node pa ap ps st2 flag sym hsym hdm
    simp [defaultPropertyCall, hsym, hdm]
  · intro node pa ap ps st2 flag sym hsym hdm hsup
    simp [defaultPropertyCall, hsym, hdm, hsup]

/-- Witness for C8 at concrete inputs: a tuple-returning plain call is
wrapped exactly once when not suppressed, and left bare when suppression is
requested; an unsuppressed non-tuple default member call is not wrapped. -/
theorem claim8_witness :
    (transpileCallExpression trivCb st0 callOtherTuple false =
      (let cp := trivCb.transpileExpression st0 exprPlain
       let pr := trivCb.transpileArguments cp.2 [exprPlain]
       Except.ok (wrapTuple false true (cp.1 ++ "(" ++ pr.1 ++ ")"), pr.2))) ∧
    transpileCallExpression trivCb st0 callOtherTuple false =
      Except.ok ("\x7b arr(f) \x7d", st0) ∧
    transpileCallExpression trivCb st0 callOtherTuple true =
      Except.ok ("arr(f)", st0) ∧
    tinfoPlain.symbol = none ∧
    (defaultPropertyCall callDefaultMember ⟨exprPlain, "foo", tinfoPlain⟩ "obj" "f" st0 true =
      Except.ok (wrapTuple true callDefaultMember.returnTypeIsTuple
        ("obj" ++ "." ++ "foo" ++ "(" ++ "f" ++ ")"), st0)) ∧
    defaultPropertyCall callDefaultMember ⟨exprPlain, "foo", tinfoPlain⟩ "obj" "f" st0 true =
      Except.ok ("obj.foo(f)", st0) :=
  ⟨claim8_tuple_wrapping.2.2.2.2.1 trivCb st0 exprPlain [exprPlain] true false false,
    rfl, rfl, rfl,
    claim8_tuple_wrapping.2.2.2.2.2.1 callDefaultMember ⟨exprPlain, "foo", tinfoPlain⟩
      "obj" "f" st0 true rfl,
    rfl⟩

/-! ## C9: multiple export-assignment rejection -/

/-- The ExportAssignment loop only ever raises the MultipleExportEquals
diagnostic. -/
theorem exportEqualsLoop_error_eq :
    ∀ (l : List Bool) (acc : Bool) (e : Err),
      exportEqualsLoop l acc = Except.error e → e = multipleExportEqualsErr := by
  intro l
  induction l with
  | nil => intro acc e h; simp [exportEqualsLoop] at h
  | cons f rest ih =>
    intro acc e h
    cases acc
    · exact ih _ e h
    · simp [exportEqualsLoop] at h
      exact h.symm

/-- The loop rejects exactly the files in which some ExportAssignment
descendant (of either kind) appears strictly after an `export =` descendant. -/
theorem exportEqualsLoop_error_iff (l : List Bool) :
    exportEqualsLoop l false = Except.error multipleExportEqualsErr ↔
      ∃ l₁ l₂, l = l₁ ++ true :: l₂ ∧ l₂ ≠ [] := by
  induction l with
  | nil =>
    constructor
    · intro h; simp [exportEqualsLoop] at h
    · rintro ⟨l₁, l₂, h, hne⟩; exact absurd h (by simp)
  | cons f rest ih =>
    cases f
    · rw [show exportEqualsLoop (false :: rest) false = exportEqualsLoop rest false from rfl]
      constructor
      · intro h
        obtain ⟨l₁, l₂, hl, hne⟩ := ih.mp h
        exact ⟨false :: l₁, l₂, by rw [hl]; rfl, hne⟩
      · rintro ⟨l₁, l₂, hl, hne⟩
        cases l₁ with
        | nil => simp at hl
        | cons a l₁' =>
          rw [List.cons_append] at hl
          obtain ⟨ha, hrest⟩ := List.cons.inj hl
          exact ih.mpr ⟨l₁', l₂, hrest, hne⟩
    · rw [show exportEqualsLoop (true :: rest) false = exportEqualsLoop rest true from rfl]
      cases rest with
      | nil =>
        constructor
        · intro h; simp [exportEqualsLoop] at h
        · rintro ⟨l₁, l₂, hl, hne⟩
          cases l₁ with
          | nil =>
            simp only [List.nil_append, List.cons.injEq] at hl
            exact absurd hl.2.symm hne
          | cons a l₁' => simp at hl
      | cons g rest' =>
        constructor
        · intro _
          exact ⟨[], g :: rest', rfl, by simp⟩
        · intro _; rfl

/-- A list with at least two `true` entries decomposes as
`l₁ ++ true :: l₂` with `l₂` nonempty. -/
theorem count_true_two_decomp (l : List Bool) (h : 2 ≤ l.count true) :
    ∃ l₁ l₂, l = l₁ ++ true :: l₂ ∧ l₂ ≠ [] := by
  induction l with
  | nil => simp at h
  | cons f rest ih =>
    cases f
    · have h' : 2 ≤ rest.count true := by
        rwa [List.count_cons_of_ne (by decide)] at h
      obtain ⟨l₁, l₂, hl, hne⟩ := ih h'
      exact ⟨false :: l₁, l₂, by rw [hl]; rfl, hne⟩
    · have h1 : 1 ≤ rest.count true := by
        rw [List.count_cons_self] at h
        omega
      have hne : rest ≠ [] := by
        intro he
        subst he
        simp at h1
      exact ⟨[], rest, rfl, hne⟩

/-- Claim C9 (amended): in a module-kind file (isModule after lowering the
body, script type Module), the wrapper raises MultipleExportEquals exactly
when some ExportAssignment descendant appears strictly after an `export =`
descendant.  In particular every file with more than one `export =` is
rejected; but a file with a single `export =` followed by another
export-assignment descendant (e.g. `export default`) is rejected too, so
"at most one export= is never rejected" does not hold as stated. -/
theorem claim9_amended_export_equals :
    (∀ (cb : Collab) (st : TranspilerState) (node : SourceFileNode),
      (cb.transpileStatementedNode { st with scriptContext := node.scriptContext } node).2.isModule
          = true →
      node.scriptType = ScriptType.Module →
      ((∃ e, transpileSourceFile cb st node = Except.error e ∧
          e.errorType? = some TranspilerErrorType.MultipleExportEquals) ↔
        ∃ l₁ l₂, node.exportAssignments = l₁ ++ true :: l₂ ∧ l₂ ≠ []))
    ∧ (∀ l : List Bool, 2 ≤ l.count true → ∃ l₁ l₂, l = l₁ ++ true :: l₂ ∧ l₂ ≠ []) := by
  constructor
  · intro cb st node hmod hty
    rcases hloop : exportEqualsLoop node.exportAssignments false with e | hasEE
    · have he := exportEqualsLoop_error_eq _ _ _ hloop
      subst he
      constructor
      · intro _; exact (exportEqualsLoop_error_iff _).mp hloop
      · intro _
        refine ⟨multipleExportEqualsErr, ?_, rfl⟩
        simp [transpileSourceFile, hmod, hty, hloop]
    · constructor
      · rintro ⟨e, he, hety⟩
        simp [transpileSourceFile, hmod, hty, hloop] at he
      · rintro ⟨l₁, l₂, hl, hne⟩
        exfalso
        have hcontra : exportEqualsLoop node.exportAssignments false =
            Except.error multipleExportEqualsErr :=
          (exportEqualsLoop_error_iff _).mpr ⟨l₁, l₂, hl, hne⟩
        rw [hloop] at hcontra
        exact Except.noConfusion hcontra
  · exact count_true_two_decomp

/-- Witness for the amended C9 at a concrete input: a module file with two
`export =` assignments satisfies the hypotheses, and its rejection follows
from the amended theorem (the decomposition exists since the count is 2). -/
theorem claim9_amended_witness :
    (trivCb.transpileStatementedNode
        { stM with scriptContext := sfNodeTwoExportEquals.scriptContext }
        sfNodeTwoExportEquals).2.isModule = true ∧
    sfNodeTwoExportEquals.scriptType = ScriptType.Module ∧
    ((∃ e, transpileSourceFile trivCb stM sfNodeTwoExportEquals = Except.error e ∧
        e.errorType? = some TranspilerErrorType.MultipleExportEquals) ↔
      ∃ l₁ l₂, sfNodeTwoExportEquals.exportAssignments = l₁ ++ true :: l₂ ∧ l₂ ≠ []) ∧
    (∃ l₁ l₂, ([true, true] : List Bool) = l₁ ++ true :: l₂ ∧ l₂ ≠ []) :=
  ⟨rfl, rfl,
    claim9_amended_export_equals.1 trivCb stM sfNodeTwoExportEquals rfl rfl,
    claim9_amended_export_equals.2 [true, true] (by decide)⟩

/-- Counterexample to C9 as stated: a module-kind file whose ExportAssignment
descendants are one `export =` followed by one non-export-equals assignment
(`export default`) contains exactly one `export =`, yet the wrapper rejects
it with the MultipleExportEquals diagnostic. -/
theorem claim9_counterexample :
    sfNodeOneExportEqualsThenDefault.exportAssignments.count true = 1 ∧
    transpileSourceFile trivCb stM sfNodeOneExportEqualsThenDefault =
      Except.error multipleExportEqualsErr :=
  ⟨rfl, rfl⟩

/-! ## Helper lemmas for the class-lowering claims -/

/-- A method found directly on the class is found by getClassMethod. -/
theorem getClassMethod_of_own {node : ClassNode} {u : String} {m : MethodDecl}
    (h : node.data.findMethod u = some m) : getClassMethod node u = some m := by
  obtain ⟨d, anc⟩ := node
  cases anc <;> simp_all [getClassMethod, getClassMethodAux]

/-- If a reserved metamethod outside the undefinable set is defined on the
class (or an ancestor) and the metamethod loop succeeds, its output contains
the forwarding trampoline for that metamethod. -/
theorem metamethodFold_ok_contains (node : ClassNode) (ind id : String) :
    ∀ (l : List String) (mm : String) (m : MethodDecl) (t : String),
      mm ∈ l → getClassMethod node mm = some m →
      mm ∉ LUA_UNDEFINABLE_METAMETHODS →
      metamethodFold node ind id l = Except.ok t →
      ContainsStr t (id ++ "." ++ mm ++ " = function(self, ...) return self:" ++ mm
        ++ "(...); end;\n") := by
  intro l
  induction l with
  | nil => intro mm m t hmem _ _ _; cases hmem
  | cons x rest ih =>
    intro mm m t hmem hfind hundef hok
    rcases List.mem_cons.mp hmem with heq | hmem'
    · subst heq
      have hc : LUA_UNDEFINABLE_METAMETHODS.contains mm = false := by
        simpa using hundef
      simp only [metamethodFold, hfind, hc, Bool.false_eq_true, if_false] at hok
      cases hrest : metamethodFold node ind id rest with
      | error e => rw [hrest] at hok; exact absurd hok (by simp)
      | ok restText =>
        rw [hrest] at hok
        simp only [Except.ok.injEq] at hok
        refine ⟨ind, restText, ?_⟩
        rw [← hok]
        simp [String.append_assoc]
    · cases hfx : getClassMethod node x with
      | none =>
        simp only [metamethodFold, hfx] at hok
        exact ih mm m t hmem' hfind hundef hok
      | some mx =>
        by_cases hxu : LUA_UNDEFINABLE_METAMETHODS.contains x = true
        · simp only [metamethodFold, hfx, hxu, if_true] at hok
          exact absurd hok (by simp)
        · have hxu' : LUA_UNDEFINABLE_METAMETHODS.contains x = false :=
            Bool.eq_false_iff.mpr hxu
          simp only [metamethodFold, hfx, hxu', Bool.false_eq_true, if_false] at hok
          cases hrest : metamethodFold node ind id rest with
          | error e => rw [hrest] at hok; exact absurd hok (by simp)
          | ok restText =>
            rw [hrest] at hok
            simp only [Except.ok.injEq] at hok
            have hcr := ih mm m restText hmem' hfind hundef hrest
            rw [← hok]
            exact hcr.appendLeft _

/-- If some undefinable metamethod is defined on the class (or an ancestor)
and appears in the scanned list, the metamethod loop raises the
UndefinableMetamethod diagnostic. -/
theorem metamethodFold_error (node : ClassNode) (ind id : String) :
    ∀ (l : List String) (u : String) (m : MethodDecl),
      u ∈ l → getClassMethod node u = some m → u ∈ LUA_UNDEFINABLE_METAMETHODS →
      ∃ msg, metamethodFold node ind id l =
        Except.error (Err.transpiler msg TranspilerErrorType.UndefinableMetamethod) := by
  intro l
  induction l with
  | nil => intro u m hmem _ _; cases hmem
  | cons x rest ih =>
    intro u m hmem hfind hundef
    rcases List.mem_cons.mp hmem with heq | hmem'
    · subst heq
      exact ⟨"Cannot use undefinable Lua metamethod as identifier \x27" ++ u
          ++ "\x27 for a class",
        by simp [metamethodFold, hfind, hundef]⟩
    · cases hfx : getClassMethod node x with
      | none =>
        obtain ⟨msg, hmsg⟩ := ih u m hmem' hfind hundef
        exact ⟨msg, by simp [metamethodFold, hfx, hmsg]⟩
      | some mx =>
        by_cases hxu : x ∈ LUA_UNDEFINABLE_METAMETHODS
        · exact ⟨"Cannot use undefinable Lua metamethod as identifier \x27" ++ x
              ++ "\x27 for a class",
            by simp [metamethodFold, hfx, hxu]⟩
        · obtain ⟨msg, hmsg⟩ := ih u m hmem' hfind hundef
          exact ⟨msg, by simp [metamethodFold, hfx, hxu, hmsg]⟩

/-- The extra-initializer loop succeeds whenever the reserved-method-name
check collaborator succeeds. -/
theorem extraInitializersFold_ok (cb : Collab)
    (hcmr : ∀ s, cb.checkMethodReserved s = Except.ok ()) :
    ∀ (l : List InstanceProp) (st : TranspilerState),
      ∃ inits st', extraInitializersFold cb l st = Except.ok (inits, st') := by
  intro l
  induction l with
  | nil => intro st; exact ⟨[], st, rfl⟩
  | cons p rest ih =>
    intro st
    by_cases hname : p.name = ""
    · obtain ⟨inits, st', h⟩ := ih st
      exact ⟨inits, st', by simp [extraInitializersFold, hname, h]⟩
    · cases hinit : (if p.isInitializerExprable then p.initializer else none) with
      | none =>
        obtain ⟨inits, st', h⟩ := ih st
        exact ⟨inits, st', by simp [extraInitializersFold, hname, hcmr, hinit, h]⟩
      | some e =>
        obtain ⟨inits, st', h⟩ := ih (cb.transpileExpression st e).2
        exact ⟨("self." ++ p.name ++ " = " ++ (cb.transpileExpression st e).1 ++ ";\n") :: inits,
          st', by simp [extraInitializersFold, hname, hcmr, hinit, h]⟩

/-- The instance-table section succeeds whenever the reserved-method-name
check collaborator succeeds. -/
theorem instanceTableSection_ok (cb : Collab) (st : TranspilerState) (d : ClassData)
    (id : String) (hII : Bool) (hcmr : ∀ s, cb.checkMethodReserved s = Except.ok ()) :
    ∃ t inits st', instanceTableSection cb st d id hII = Except.ok (t, inits, st') := by
  obtain ⟨inits, st2, h⟩ := extraInitializersFold_ok cb hcmr
    (((d.instanceProperties.filter (fun p => p.parentIsClass)).filter
        (fun p => ¬ p.kind = PropKind.getAcc)).filter
      (fun p => ¬ p.kind = PropKind.setAcc)) st.pushIndent
  simp only [instanceTableSection, h]
  exact ⟨_, _, _, rfl⟩

/-- The static-property loop succeeds whenever the reserved-method-name check
collaborator succeeds. -/
theorem staticPropsFold_ok (cb : Collab) (id : String)
    (hcmr : ∀ s, cb.checkMethodReserved s = Except.ok ()) :
    ∀ (l : List StaticProp) (acc : String) (st : TranspilerState),
      ∃ t st', staticPropsFold cb id l acc st = Except.ok (t, st') := by
  intro l
  induction l with
  | nil => intro acc st; exact ⟨acc, st, rfl⟩
  | cons p rest ih =>
    intro acc st
    simp only [staticPropsFold, hcmr]
    exact ih _ _

/-- Regrouping an eleven-part concatenation around its fifth and sixth parts. -/
theorem concat11_decomp (s1 s2 s3 s4 s5 s6 s7 s8 s9 s10 s11 : String) :
    s1 ++ s2 ++ s3 ++ s4 ++ s5 ++ s6 ++ s7 ++ s8 ++ s9 ++ s10 ++ s11 =
      (s1 ++ s2 ++ s3 ++ s4) ++ (s5 ++ (s6 ++ (s7 ++ s8 ++ s9 ++ s10 ++ s11))) := by
  simp [String.append_assoc]

/-- Any successful run of the main class-lowering body decomposes around the
metamethod-trampoline text and the `new`-factory text. -/
theorem transpileClassMain_decomp {cb : Collab} {st : TranspilerState} {node : ClassNode}
    {name res : String} {stF : TranspilerState}
    (h : transpileClassMain cb st node name = Except.ok (res, stF)) :
    ∃ A ind stMid metaT B,
      metamethodFold node ind name LUA_RESERVED_METAMETHODS = Except.ok metaT ∧
      res = A ++ (metaT ++ (newFactorySection stMid name node.data.isAbstract ++ B)) := by
  simp only [transpileClassMain] at h
  split at h
  · exact absurd h (by simp)
  next instTbl extraInits st4 hins =>
    split at h
    · exact absurd h (by simp)
    next metaT hmeta =>
      split at h
      · exact absurd h (by simp)
      next staticPropsText st6 hprops =>
        simp only [Except.ok.injEq, Prod.mk.injEq] at h
        obtain ⟨hres, hstF⟩ := h
        rw [concat11_decomp] at hres
        exact ⟨_, _, st4, metaT, _, hmeta, hres.symm⟩

/-- With a named class, a succeeding reserved-name check and no Roact base
type, transpileClass reduces to its main body. -/
theorem transpileClass_named (cb : Collab) (st : TranspilerState) (node : ClassNode)
    (nm : String)
    (hname : node.data.nameOpt = some nm)
    (hcr : cb.checkReserved nm = Except.ok ())
    (hroact : findRoact node.data.baseTypes = RoactOutcome.none) :
    transpileClass cb st node =
      transpileClassMain cb (if node.data.isExpression then st else st.pushExport nm) node nm := by
  simp [transpileClass, hname, hcr, hroact]

/-- An UndefinableMetamethod result carries some diagnostic message. -/
theorem isUndefErr_exists {r : Except Err (String × TranspilerState)} (h : isUndefErr r) :
    ∃ msg, r = Except.error (Err.transpiler msg TranspilerErrorType.UndefinableMetamethod) := by
  cases r with
  | ok p => simp [isUndefErr] at h
  | error e =>
    cases e with
    | thrown msg => simp [isUndefErr] at h
    | transpiler msg ty =>
      cases ty <;> first
        | exact ⟨msg, rfl⟩
        | simp [isUndefErr] at h

/-! ## C1: metamethod trampolines and the undefinable-metamethod diagnostic -/

/-- Claim C1: when a class defines a reserved Lua metamethod outside the
non-overridable set \x7b__index, __newindex, __mode\x7d as a method and class
lowering succeeds, the output contains the forwarding trampoline
`<id>.<metamethod> = function(self, ...) return self:<metamethod>(...); end;`
for that name; when the class defines a method named by one of the three
non-overridable metamethods (and the earlier stages of lowering do not fail),
class lowering raises the terminal UndefinableMetamethod diagnostic and
produces no output. -/
theorem claim1_metamethods :
    (∀ (cb : Collab) (st : TranspilerState) (node : ClassNode) (nm mm : String)
        (m : MethodDecl) (res : String) (stF : TranspilerState),
      node.data.nameOpt = some nm →
      findRoact node.data.baseTypes = RoactOutcome.none →
      mm ∈ LUA_RESERVED_METAMETHODS →
      mm ∉ LUA_UNDEFINABLE_METAMETHODS →
      getClassMethod node mm = some m →
      transpileClass cb st node = Except.ok (res, stF) →
      ContainsStr res (nm ++ "." ++ mm ++ " = function(self, ...) return self:" ++ mm
        ++ "(...); end;\n"))
    ∧ (∀ (cb : Collab) (st : TranspilerState) (node : ClassNode) (nm u : String)
        (m : MethodDecl),
      node.data.nameOpt = some nm →
      cb.checkReserved nm = Except.ok () →
      (∀ s, cb.checkMethodReserved s = Except.ok ()) →
      findRoact node.data.baseTypes = RoactOutcome.none →
      u ∈ LUA_UNDEFINABLE_METAMETHODS →
      node.data.findMethod u = some m →
      ∃ msg, transpileClass cb st node =
        Except.error (Err.transpiler msg TranspilerErrorType.UndefinableMetamethod)) := by
  constructor
  · intro cb st node nm mm m res stF hname hroact hmem hundef hfind h
    cases hc : cb.checkReserved nm with
    | error e => simp [transpileClass, hname, hc] at h
    | ok u =>
      cases u
      rw [transpileClass_named cb st node nm hname hc hroact] at h
      obtain ⟨A, ind, stMid, metaT, B, hmeta, hres⟩ := transpileClassMain_decomp h
      rw [hres]
      exact ((metamethodFold_ok_contains node ind nm LUA_RESERVED_METAMETHODS mm m metaT
        hmem hfind hundef hmeta).appendRight _).appendLeft A
  · intro cb st node nm u m hname hcr hcmr hroact hundef hfm
    rw [transpileClass_named cb st node nm hname hcr hroact]
    apply isUndefErr_exists
    simp only [transpileClassMain]
    split
    next e hIerr =>
      obtain ⟨t, i, s4, hok⟩ := instanceTableSection_ok cb _ node.data nm _ hcmr
      rw [hok] at hIerr
      cases hIerr
    next instTbl extraInits st4 hIok =>
      have humem : u ∈ LUA_RESERVED_METAMETHODS := by
        have hu' := hundef
        simp only [LUA_UNDEFINABLE_METAMETHODS, List.mem_cons, List.mem_singleton,
          List.not_mem_nil, or_false] at hu'
        rcases hu' with h | h | h <;> (subst h; decide)
      obtain ⟨msg, hmsg⟩ := metamethodFold_error node st4.indent nm LUA_RESERVED_METAMETHODS
        u m humem (getClassMethod_of_own hfm) hundef
      simp [hmsg, isUndefErr]

/-- Witness for C1 at concrete inputs: a class `Foo` defining `__tostring`
gets the trampoline in its lowered output, and a class `Bad` defining
`__index` is rejected with the UndefinableMetamethod diagnostic. -/
theorem claim1_witness :
    goodNode.data.nameOpt = some "Foo" ∧
    findRoact goodNode.data.baseTypes = RoactOutcome.none ∧
    "__tostring" ∈ LUA_RESERVED_METAMETHODS ∧
    "__tostring" ∉ LUA_UNDEFINABLE_METAMETHODS ∧
    getClassMethod goodNode "__tostring" = some ⟨"__tostring", true, 0⟩ ∧
    ContainsStr (exOut (transpileClass trivCb st0 goodNode))
      ("Foo" ++ "." ++ "__tostring" ++ " = function(self, ...) return self:" ++ "__tostring"
        ++ "(...); end;\n") ∧
    badNode.data.findMethod "__index" = some ⟨"__index", true, 0⟩ ∧
    (∃ msg, transpileClass trivCb st0 badNode =
      Except.error (Err.transpiler msg TranspilerErrorType.UndefinableMetamethod)) :=
  ⟨rfl, rfl, by decide, by decide, rfl,
    claim1_metamethods.1 trivCb st0 goodNode "Foo" "__tostring" ⟨"__tostring", true, 0⟩
      (exOut (transpileClass trivCb st0 goodNode))
      (exState st0 (transpileClass trivCb st0 goodNode))
      rfl rfl (by decide) (by decide) rfl rfl,
    rfl,
    claim1_metamethods.2 trivCb st0 badNode "Bad" "__index" ⟨"__index", true, 0⟩
      rfl rfl (fun _ => rfl) rfl (by decide) rfl⟩

/-! ## C4: the `new` factory -/

/-- Claim C4: an abstract class gets no `new` factory (the factory section
emits nothing), while a non-abstract class gets exactly one factory of the
form `<id>.new = function(...) return <id>.constructor(setmetatable(\x7b\x7d,
<id>), ...); end;` — a fresh table with the class table as metatable, all
call arguments forwarded to the constructor slot — and for every successful
lowering of a named non-abstract class that factory text occurs in the
output (the factory section is appended exactly once by transpileClassMain). -/
theorem claim4_new_factory :
    (∀ (st : TranspilerState) (id : String), newFactorySection st id true = "")
    ∧ (∀ (st : TranspilerState) (id : String),
      newFactorySection st id false =
        st.indent ++ id ++ ".new = function(...)\n"
          ++ st.pushIndent.indent ++ "return " ++ id ++ ".constructor(setmetatable(\x7b\x7d, "
          ++ id ++ "), ...);\n" ++ st.indent ++ "end;\n")
    ∧ (∀ (cb : Collab) (st : TranspilerState) (node : ClassNode) (nm res : String)
        (stF : TranspilerState),
      node.data.nameOpt = some nm →
      findRoact node.data.baseTypes = RoactOutcome.none →
      node.data.isAbstract = false →
      transpileClass cb st node = Except.ok (res, stF) →
      ∃ stX : TranspilerState, ContainsStr res (newFactorySection stX nm false)) := by
  refine ⟨fun st id => rfl, fun st id => rfl, ?_⟩
  intro cb st node nm res stF hname hroact habs h
  cases hc : cb.checkReserved nm with
  | error e => simp [transpileClass, hname, hc] at h
  | ok u =>
    cases u
    rw [transpileClass_named cb st node nm hname hc hroact] at h
    obtain ⟨A, ind, stMid, metaT, B, hmeta, hres⟩ := transpileClassMain_decomp h
    rw [habs] at hres
    rw [hres]
    exact ⟨stMid,
      ((((containsStr_self (newFactorySection stMid nm false)).appendRight B).appendLeft
        metaT).appendLeft A)⟩

/-- Witness for C4 at concrete inputs: the abstract class `Abs` gets an empty
factory section; the concrete class `Foo` has the factory text in its lowered
output. -/
theorem claim4_witness :
    newFactorySection st0 "Abs" true = "" ∧
    newFactorySection st0 "Foo" false =
      st0.indent ++ "Foo" ++ ".new = function(...)\n"
        ++ st0.pushIndent.indent ++ "return " ++ "Foo" ++ ".constructor(setmetatable(\x7b\x7d, "
        ++ "Foo" ++ "), ...);\n" ++ st0.indent ++ "end;\n" ∧
    goodNode.data.isAbstract = false ∧
    (∃ stX : TranspilerState,
      ContainsStr (exOut (transpileClass trivCb st0 goodNode)) (newFactorySection stX "Foo" false)) :=
  ⟨claim4_new_factory.1 st0 "Abs", claim4_new_factory.2.1 st0 "Foo", rfl,
    claim4_new_factory.2.2 trivCb st0 goodNode "Foo"
      (exOut (transpileClass trivCb st0 goodNode))
      (exState st0 (transpileClass trivCb st0 goodNode)) rfl rfl rfl rfl⟩

/-! ## C3: the no-inheritance fast path -/

/-- The inheritance-flag walk computes exactly "some ancestor passes the
static member test / the instance member test". -/
theorem inheritanceFlagsLoop_eq (l : List ClassData) (s i : Bool) :
    inheritanceFlagsLoop l s i = (s || l.any staticTest, i || l.any instanceTest) := by
  induction l generalizing s i with
  | nil => simp [inheritanceFlagsLoop]
  | cons d rest ih =>
    simp only [inheritanceFlagsLoop, ih, List.any_cons]
    cases hs : staticTest d <;> cases hi : instanceTest d <;> cases s <;> cases i <;> simp

/-- Claim C3: the derived inheritance flags hold exactly when some ancestor
declares a static (resp. instance) member; with both flags false no
`local super = ...;` alias line is emitted and both the static table and the
instance (`__index`) table are plain table literals closed by `\x7d;` with no
setmetatable wrapping; with a flag set, the corresponding table is wrapped in
setmetatable with the super link, and the super alias line is emitted. -/
theorem claim3_no_inheritance_fast_path :
    (∀ node : ClassNode, inheritanceFlagsLoop node.ancestors false false =
      (node.ancestors.any staticTest, node.ancestors.any instanceTest))
    ∧ (∀ (st : TranspilerState) (b : String), superAliasSection st b false false = "")
    ∧ (∀ (st : TranspilerState) (b : String) (hS hI : Bool), (hS || hI) = true →
      superAliasSection st b hS hI = st.indent ++ "local super = " ++ b ++ ";\n")
    ∧ (∀ (cb : Collab) (st : TranspilerState) (d : ClassData) (id pfx : String),
      ∃ body hasM stOut,
        staticTableSection cb st d id pfx false =
          (st.indent ++ pfx ++ id ++ " = \x7b" ++ body
            ++ ((if hasM then stOut.indent else "") ++ "\x7d;\n"), hasM, stOut))
    ∧ (∀ (cb : Collab) (st : TranspilerState) (d : ClassData) (id pfx : String),
      ∃ body hasM stOut,
        staticTableSection cb st d id pfx true =
          (st.indent ++ pfx ++ id ++ " = setmetatable(\x7b" ++ body
            ++ ((if hasM then stOut.indent else "") ++ "\x7d, \x7b__index = super\x7d);\n"),
            hasM, stOut))
    ∧ (∀ (cb : Collab) (st : TranspilerState) (d : ClassData) (id : String) (t : String)
        (i : List String) (s' : TranspilerState),
      instanceTableSection cb st d id false = Except.ok (t, i, s') →
      ∃ (body : String) (hasM : Bool), t = st.indent ++ id ++ ".__index = \x7b" ++ body
        ++ ((if hasM then s'.indent else "") ++ "\x7d;\n"))
    ∧ (∀ (cb : Collab) (st : TranspilerState) (d : ClassData) (id : String) (t : String)
        (i : List String) (s' : TranspilerState),
      instanceTableSection cb st d id true = Except.ok (t, i, s') →
      ∃ (body : String) (hasM : Bool), t = st.indent ++ id ++ ".__index = setmetatable(\x7b" ++ body
        ++ ((if hasM then s'.indent else "") ++ "\x7d, super);\n")) := by
  refine ⟨?_, ?_, ?_, ?_, ?_, ?_, ?_⟩
  · intro node; exact inheritanceFlagsLoop_eq node.ancestors false false
  · intro st b; rfl
  · intro st b hS hI h
    simp [superAliasSection, h]
  · intro cb st d id pfx
    exact ⟨_, _, _, rfl⟩
  · intro cb st d id pfx
    exact ⟨_, _, _, rfl⟩
  · intro cb st d id t i s' h
    simp only [instanceTableSection] at h
    split at h
    · exact absurd h (by simp)
    next inits st2 heq =>
      simp only [Except.ok.injEq, Prod.mk.injEq] at h
      obtain ⟨ht, hi, hs⟩ := h
      exact ⟨(instanceMethodsFold cb (d.instanceMethods.filter (fun m => m.hasBody)) "" false
          st2).1,
        (instanceMethodsFold cb (d.instanceMethods.filter (fun m => m.hasBody)) "" false
          st2).2.1,
        by rw [← ht, ← hs]; simp⟩
  · intro cb st d id t i s' h
    simp only [instanceTableSection] at h
    split at h
    · exact absurd h (by simp)
    next inits st2 heq =>
      simp only [Except.ok.injEq, Prod.mk.injEq] at h
      obtain ⟨ht, hi, hs⟩ := h
      exact ⟨(instanceMethodsFold cb (d.instanceMethods.filter (fun m => m.hasBody)) "" false
          st2).1,
        (instanceMethodsFold cb (d.instanceMethods.filter (fun m => m.hasBody)) "" false
          st2).2.1,
        by rw [← ht, ← hs]; simp⟩

/-- Witness for C3 at concrete inputs: a class with one ancestor that
declares only an instance member gets flags (false, true); the super alias is
emitted for (false, true) and both table shapes are exhibited on concrete
sections. -/
theorem claim3_witness :
    inheritanceFlagsLoop derivedNode.ancestors false false =
      (derivedNode.ancestors.any staticTest, derivedNode.ancestors.any instanceTest) ∧
    inheritanceFlagsLoop derivedNode.ancestors false false = (false, true) ∧
    superAliasSection st0 "Anc" false false = "" ∧
    superAliasSection st0 "Anc" false true = st0.indent ++ "local super = " ++ "Anc" ++ ";\n" ∧
    (∃ body hasM stOut, staticTableSection trivCb st0 emptyClassData "Foo" "" false =
      (st0.indent ++ "" ++ "Foo" ++ " = \x7b" ++ body
        ++ ((if hasM then stOut.indent else "") ++ "\x7d;\n"), hasM, stOut)) ∧
    (∃ (body : String) (hasM : Bool), "Foo.__index = \x7b\x7d;\n" = st0.indent ++ "Foo" ++ ".__index = \x7b" ++ body
      ++ ((if hasM then st0.indent else "") ++ "\x7d;\n")) :=
  ⟨claim3_no_inheritance_fast_path.1 derivedNode, rfl,
    claim3_no_inheritance_fast_path.2.1 st0 "Anc",
    claim3_no_inheritance_fast_path.2.2.1 st0 "Anc" false true rfl,
    claim3_no_inheritance_fast_path.2.2.2.1 trivCb st0 emptyClassData "Foo" "",
    claim3_no_inheritance_fast_path.2.2.2.2.2.1 trivCb st0 emptyClassData "Foo"
      "Foo.__index = \x7b\x7d;\n" [] st0 rfl⟩

/-! ## C2: accessor dispatch -/

/-- Claim C2: when a class has own or inherited get-accessors, the getter
section replaces the `__index` slot with the dispatch block (snapshotting the
previously assembled instance table in `local __index`), and the emitted
dispatch function invokes the matching accessor from `_getters` when one
exists and otherwise falls back to an ordinary lookup in the snapshotted
table — exactly one of the two, as witnessed by the branch marker of the
embedded semantics; symmetrically for set-accessors, `_setters` and the
`__newindex` block whose fallback is a raw `rawset` write. -/
theorem claim2_accessor_dispatch :
    (∀ (cb : Collab) (st : TranspilerState) (d : ClassData) (anc : List ClassData)
        (id : String),
      (decide (0 < (gettersOf d).length) || ancestorHasGettersLoop anc) = true →
      ∃ tbl stA, gettersSection cb st d anc id = (tbl ++ indexDispatchBlock stA id, stA))
    ∧ (∀ (cb : Collab) (st : TranspilerState) (d : ClassData) (anc : List ClassData)
        (id : String),
      (decide (0 < (gettersOf d).length) || ancestorHasGettersLoop anc) = false →
      gettersSection cb st d anc id = ("", st))
    ∧ (∀ {σ V : Type} (getters : String → Option (σ → V)) (rawIndex : String → V)
        (self : σ) (index : String) (g : σ → V), getters index = some g →
      emittedIndexMetamethod getters rawIndex self index = (true, g self))
    ∧ (∀ {σ V : Type} (getters : String → Option (σ → V)) (rawIndex : String → V)
        (self : σ) (index : String), getters index = none →
      emittedIndexMetamethod getters rawIndex self index = (false, rawIndex index))
    ∧ (∀ (cb : Collab) (st : TranspilerState) (d : ClassData) (anc : List ClassData)
        (id : String),
      (decide (0 < (settersOf d).length) || ancestorHasSettersLoop anc) = true →
      ∃ tbl stA, settersSection cb st d anc id = (tbl ++ newindexDispatchBlock stA id, stA))
    ∧ (∀ {σ V : Type} (setters : String → Option (σ → V → σ)) (rawset : σ → String → V → σ)
        (self : σ) (index : String) (value : V) (s : σ → V → σ), setters index = some s →
      emittedNewindexMetamethod setters rawset self index value = (true, s self value))
    ∧ (∀ {σ V : Type} (setters : String → Option (σ → V → σ)) (rawset : σ → String → V → σ)
        (self : σ) (index : String) (value : V), setters index = none →
      emittedNewindexMetamethod setters rawset self index value =
        (false, rawset self index value)) := by
  refine ⟨?_, ?_, ?_, ?_, ?_, ?_, ?_⟩
  · intro cb st d anc id h
    simp only [gettersSection, h, if_true]
    exact ⟨_, _, rfl⟩
  · intro cb st d anc id h
    simp only [gettersSection, h, Bool.false_eq_true, if_false]
  · intro σ V getters rawIndex self index g h
    simp [emittedIndexMetamethod, h]
  · intro σ V getters rawIndex self index h
    simp [emittedIndexMetamethod, h]
  · intro cb st d anc id h
    simp only [settersSection, h, if_true]
    exact ⟨_, _, rfl⟩
  · intro σ V setters rawset self index value s h
    simp [emittedNewindexMetamethod, h]
  · intro σ V setters rawset self index value h
    simp [emittedNewindexMetamethod, h]

/-- Witness for C2 at concrete inputs: the class `Acc` with one getter and
one setter emits both dispatch blocks, and the embedded dispatch semantics
takes exactly the accessor branch on key "x" and exactly the fallback branch
on key "y". -/
theorem claim2_witness :
    (∃ tbl stA, gettersSection trivCb st0 accNode.data accNode.ancestors "Acc" =
      (tbl ++ indexDispatchBlock stA "Acc", stA)) ∧
    (∃ tbl stA, settersSection trivCb st0 accNode.data accNode.ancestors "Acc" =
      (tbl ++ newindexDispatchBlock stA "Acc", stA)) ∧
    emittedIndexMetamethod (fun s => if s = "x" then some (fun n => n + 1) else none)
      (fun _ => 7) (41 : Nat) "x" = (true, 42) ∧
    emittedIndexMetamethod (fun s => if s = "x" then some (fun n => n + 1) else none)
      (fun _ => 7) (41 : Nat) "y" = (false, 7) ∧
    emittedNewindexMetamethod (fun s => if s = "x" then some (fun n v => n + v) else none)
      (fun n _ _ => n) (40 : Nat) "x" 2 = (true, 42) ∧
    emittedNewindexMetamethod (fun s => if s = "x" then some (fun n v => n + v) else none)
      (fun n _ _ => n) (40 : Nat) "y" 2 = (false, 40) :=
  ⟨claim2_accessor_dispatch.1 trivCb st0 accNode.data accNode.ancestors "Acc" (by decide),
    claim2_accessor_dispatch.2.2.2.2.1 trivCb st0 accNode.data accNode.ancestors "Acc"
      (by decide),
    claim2_accessor_dispatch.2.2.1 (fun s => if s = "x" then some (fun n => n + 1) else none)
      (fun _ => 7) 41 "x" (fun n => n + 1) rfl,
    claim2_accessor_dispatch.2.2.2.1 (fun s => if s = "x" then some (fun n => n + 1) else none)
      (fun _ => 7) 41 "y" rfl,
    claim2_accessor_dispatch.2.2.2.2.2.1
      (fun s => if s = "x" then some (fun n v => n + v) else none) (fun n _ _ => n) 40 "x" 2
      (fun n v => n + v) rfl,
    claim2_accessor_dispatch.2.2.2.2.2.2
      (fun s => if s = "x" then some (fun n v => n + v) else none) (fun n _ _ => n) 40 "y" 2
      rfl⟩

end RobloxTS
